import Mathlib

/-!
Shallow embedding of the smash-fest vehicle-combat core: the vehicle data
model and car utilities (`packages/nextjs/app/game/car.ts`), the physics and
collision resolver (`packages/nextjs/app/game/physics.ts`), the client state
reconciliation layer (`packages/nextjs/hooks/useMultiplayer.ts`), and the
relay (`party/server.ts`).  JavaScript numbers are idealized as real numbers;
`Math.random()` and `Date.now()` results are passed in as explicit
parameters, so every operation is a pure function of its inputs.
-/

namespace SmashFest

open Real Filter

open scoped Classical

noncomputable section

/-! ## Constants (`app/game/constants.ts`) -/

def WORLD_WIDTH : ℝ := 2700
def WORLD_HEIGHT : ℝ := 1800
def CAR_WIDTH : ℝ := 50
def CAR_HEIGHT : ℝ := 30
def WALL_THICKNESS : ℝ := 20
def ACCELERATION : ℝ := 0.15
def BRAKE_DECEL : ℝ := 0.1
def MAX_SPEED : ℝ := 8
def TURN_RATE : ℝ := 0.025
def FORWARD_FRICTION : ℝ := 0.98
def SIDEWAYS_FRICTION : ℝ := 0.85
def ANGULAR_FRICTION : ℝ := 0.85
def BOUNCE_FACTOR : ℝ := 0.5
def COLLISION_DAMPING : ℝ := 0.7
def MIN_SPEED_TO_TURN : ℝ := 0.5
def MAX_ANGULAR_VEL : ℝ := 0.08
def DAMAGE_MULTIPLIER : ℝ := 3
def MIN_IMPACT_FOR_DAMAGE : ℝ := 2
def ATTACKER_DAMAGE_RATIO : ℝ := 0.15

/-- Interpolation factor of the reconciliation layer
(`hooks/useMultiplayer.ts`). -/
def INTERPOLATION_FACTOR : ℝ := 0.3

/-! ## Data model (`app/game/types.ts`) -/

/-- A point in world space (the anonymous `{x, y}` record of the source). -/
structure Point where
  x : ℝ
  y : ℝ

/-- The four independent health pools of a car. -/
structure Health where
  front : ℝ
  rear : ℝ
  left : ℝ
  right : ℝ
deriving DecidableEq

/-- The hit-zone classification result (`type HitZone` in the source). -/
inductive HitZone where
  | front
  | rear
  | left
  | right
deriving DecidableEq

/-- Read the health value of one zone (the source's `car.health[zone]`). -/
def Health.get (h : Health) : HitZone → ℝ
  | .front => h.front
  | .rear => h.rear
  | .left => h.left
  | .right => h.right

/-- Write the health value of one zone (the source's
`car.health[zone] = v`). -/
def Health.set (h : Health) : HitZone → ℝ → Health
  | .front, v => { h with front := v }
  | .rear, v => { h with rear := v }
  | .left, v => { h with left := v }
  | .right, v => { h with right := v }

/-- The unit of simulation (`interface Car`). -/
structure Car where
  x : ℝ
  y : ℝ
  vx : ℝ
  vy : ℝ
  angle : ℝ
  angularVel : ℝ
  width : ℝ
  height : ℝ
  color : String
  health : Health
  isStatic : Bool

/-- Analog control intensities in `[0, 1]` (`interface AnalogInput`). -/
structure AnalogInput where
  forward : ℝ
  reverse : ℝ
  left : ℝ
  right : ℝ

/-- An ephemeral damage popup (`interface DamagePopup`).  Its `damage` field
is the image of `Math.round`, hence an integer. -/
structure DamagePopup where
  x : ℝ
  y : ℝ
  damage : ℤ
  zone : HitZone
  age : ℕ

/-! ## Car utilities (`app/game/car.ts`) -/

/-- Create a new car at the specified position (`createCar`). -/
def createCar (x y : ℝ) (color : String) (angle : ℝ) (isStatic : Bool) : Car :=
  { x := x
    y := y
    vx := 0
    vy := 0
    angle := angle
    angularVel := 0
    width := CAR_WIDTH
    height := CAR_HEIGHT
    color := color
    health := { front := 100, rear := 100, left := 100, right := 100 }
    isStatic := isStatic }

/-- The car's four corner points (`getCarCorners`). -/
def getCarCorners (car : Car) : List Point :=
  let c := Real.cos car.angle
  let s := Real.sin car.angle
  let hw := car.width / 2
  let hh := car.height / 2
  [ { x := car.x + c * hw - s * hh, y := car.y + s * hw + c * hh },
    { x := car.x + c * hw + s * hh, y := car.y + s * hw - c * hh },
    { x := car.x - c * hw + s * hh, y := car.y - s * hw - c * hh },
    { x := car.x - c * hw - s * hh, y := car.y - s * hw + c * hh } ]

/-- Closed form of the source's angle-normalization loops
`while (a > π) a -= 2π; while (a < -π) a += 2π`.  The first loop fires only
when `a > π` and subtracts `2π` exactly `⌈(a - π) / (2π)⌉` times, landing in
`(-π, π]`; the second fires only when `a < -π` and adds `2π` exactly
`⌈(-π - a) / (2π)⌉` times, landing in `[-π, π)`; a value already in
`[-π, π]` is left untouched. -/
def wrapAngle (a : ℝ) : ℝ :=
  if Real.pi < a then a - 2 * Real.pi * ⌈(a - Real.pi) / (2 * Real.pi)⌉
  else if a < -Real.pi then a + 2 * Real.pi * ⌈(-Real.pi - a) / (2 * Real.pi)⌉
  else a

/-- Which zone of the car was hit, from the world-space collision angle
(`getHitZone`). -/
def getHitZone (car : Car) (collisionAngle : ℝ) : HitZone :=
  let relativeAngle := wrapAngle (collisionAngle - car.angle)
  if -Real.pi / 4 ≤ relativeAngle ∧ relativeAngle < Real.pi / 4 then .front
  else if Real.pi / 4 ≤ relativeAngle ∧ relativeAngle < 3 * Real.pi / 4 then .right
  else if -(3 * Real.pi) / 4 ≤ relativeAngle ∧ relativeAngle < -Real.pi / 4 then .left
  else .rear

/-- Circle collision test between two cars (`checkCarCollision`): the truth
value of `distance < minDistance`. -/
def checkCarCollision (car1 car2 : Car) : Prop :=
  let dx := car2.x - car1.x
  let dy := car2.y - car1.y
  let distance := Real.sqrt (dx * dx + dy * dy)
  let minDistance := (car1.width + car2.width) / 2 * 0.85
  distance < minDistance

/-- Total health percentage (`getTotalHealth`). -/
def getTotalHealth (car : Car) : ℝ :=
  (car.health.front + car.health.rear + car.health.left + car.health.right) / 4

/-! ## Physics (`app/game/physics.ts`) -/

/-- The JavaScript `Math.atan2(y, x)`. -/
def atan2 (y x : ℝ) : ℝ :=
  if 0 < x then Real.arctan (y / x)
  else if x < 0 then
    (if 0 ≤ y then Real.arctan (y / x) + Real.pi else Real.arctan (y / x) - Real.pi)
  else if 0 < y then Real.pi / 2
  else if y < 0 then -(Real.pi / 2)
  else 0

/-- One tick of player-car physics given analog input
(`updatePlayerCarPhysics`).  Returns the mutated car together with the new
scalar speed the source returns for display. -/
def updatePlayerCarPhysics (car : Car) (input : AnalogInput) : Car × ℝ :=
  let currentSpeed := Real.sqrt (car.vx * car.vx + car.vy * car.vy)
  let steeringFactor :=
    if currentSpeed < MIN_SPEED_TO_TURN then currentSpeed / MIN_SPEED_TO_TURN * 0.3
    else min 1 (currentSpeed / 3)
  let av0 := car.angularVel
  let av1 := if 0 < input.left then av0 - TURN_RATE * steeringFactor * input.left else av0
  let av2 := if 0 < input.right then av1 + TURN_RATE * steeringFactor * input.right else av1
  let av3 := max (-MAX_ANGULAR_VEL) (min MAX_ANGULAR_VEL av2)
  let av4 := av3 * ANGULAR_FRICTION
  let angle := car.angle + av4
  let forwardX := Real.cos angle
  let forwardY := Real.sin angle
  let vx1 := if 0 < input.forward then car.vx + forwardX * ACCELERATION * input.forward else car.vx
  let vy1 := if 0 < input.forward then car.vy + forwardY * ACCELERATION * input.forward else car.vy
  let forwardSpeed := vx1 * forwardX + vy1 * forwardY
  let vx2 :=
    if 0 < input.reverse then
      (if 0.5 < forwardSpeed then vx1 - forwardX * BRAKE_DECEL * input.reverse
       else vx1 - forwardX * ACCELERATION * 0.5 * input.reverse)
    else vx1
  let vy2 :=
    if 0 < input.reverse then
      (if 0.5 < forwardSpeed then vy1 - forwardY * BRAKE_DECEL * input.reverse
       else vy1 - forwardY * ACCELERATION * 0.5 * input.reverse)
    else vy1
  let rightX := -forwardY
  let rightY := forwardX
  let forwardVel := vx2 * forwardX + vy2 * forwardY
  let sidewaysVel := vx2 * rightX + vy2 * rightY
  let newForwardVel := forwardVel * FORWARD_FRICTION
  let newSidewaysVel := sidewaysVel * SIDEWAYS_FRICTION
  let vx3 := forwardX * newForwardVel + rightX * newSidewaysVel
  let vy3 := forwardY * newForwardVel + rightY * newSidewaysVel
  let newSpeed := Real.sqrt (vx3 * vx3 + vy3 * vy3)
  let vx4 := if MAX_SPEED < newSpeed then vx3 / newSpeed * MAX_SPEED else vx3
  let vy4 := if MAX_SPEED < newSpeed then vy3 / newSpeed * MAX_SPEED else vy3
  ({ car with
      angularVel := av4
      angle := angle
      vx := vx4
      vy := vy4
      x := car.x + vx4
      y := car.y + vy4 },
    newSpeed)

/-- One tick of target-car physics, friction only
(`updateTargetCarPhysics`). -/
def updateTargetCarPhysics (targetCar : Car) : Car :=
  let fX := Real.cos targetCar.angle
  let fY := Real.sin targetCar.angle
  let rX := -fY
  let rY := fX
  let fVel := targetCar.vx * fX + targetCar.vy * fY
  let sVel := targetCar.vx * rX + targetCar.vy * rY
  let nfVel := fVel * 0.96
  let nsVel := sVel * 0.9
  let vx := fX * nfVel + rX * nsVel
  let vy := fY * nfVel + rY * nsVel
  let angularVel := targetCar.angularVel * 0.92
  { targetCar with
      vx := vx
      vy := vy
      angularVel := angularVel
      angle := targetCar.angle + angularVel
      x := targetCar.x + vx
      y := targetCar.y + vy }

/-- Car-to-car collision resolution (`handleCarCollision`).  `now` stands for
the source's `Date.now()` call and `r1`, `r2` for its two `Math.random()`
calls.  Returns the two mutated cars, the new last-collision time, and the
damage-popup list (the source pushes onto the array in place). -/
def handleCarCollision (playerCar targetCar : Car) (lastCollisionTime : ℝ)
    (damagePopups : List DamagePopup) (now r1 r2 : ℝ) :
    Car × Car × ℝ × List DamagePopup :=
  if ¬ checkCarCollision playerCar targetCar then
    (playerCar, targetCar, lastCollisionTime, damagePopups)
  else
    let dx := targetCar.x - playerCar.x
    let dy := targetCar.y - playerCar.y
    let distance := Real.sqrt (dx * dx + dy * dy)
    let minDist := (playerCar.width + targetCar.width) / 2 * 0.85
    if minDist ≤ distance ∨ distance = 0 then
      (playerCar, targetCar, lastCollisionTime, damagePopups)
    else
      let nx := dx / distance
      let ny := dy / distance
      let overlap := minDist - distance
      let separationForce := overlap + 2
      let p1 := { playerCar with
                    x := playerCar.x - nx * separationForce * 0.6
                    y := playerCar.y - ny * separationForce * 0.6 }
      let t1 := { targetCar with
                    x := targetCar.x + nx * separationForce * 0.4
                    y := targetCar.y + ny * separationForce * 0.4 }
      let relVx := p1.vx - t1.vx
      let relVy := p1.vy - t1.vy
      let impactSpeed := |relVx * nx + relVy * ny|
      let bounce := (0.7 : ℝ)
      let impactComponent := relVx * nx + relVy * ny
      let p2 :=
        if 0 < impactComponent then
          { p1 with vx := p1.vx - nx * impactComponent * bounce
                    vy := p1.vy - ny * impactComponent * bounce }
        else
          { p1 with vx := p1.vx - nx * impactComponent * bounce * 0.8
                    vy := p1.vy - ny * impactComponent * bounce * 0.8 }
      let t2 :=
        if 0 < impactComponent then
          { t1 with vx := t1.vx + nx * impactComponent * bounce * 0.8
                    vy := t1.vy + ny * impactComponent * bounce * 0.8 }
        else
          { t1 with vx := t1.vx + nx * impactComponent * bounce
                    vy := t1.vy + ny * impactComponent * bounce }
      let p3 := { p2 with angularVel := p2.angularVel + (r1 - 0.5) * 0.1 }
      let t3 := { t2 with angularVel := t2.angularVel + (r2 - 0.5) * 0.12 }
      if now - lastCollisionTime < 150 then (p3, t3, lastCollisionTime, damagePopups)
      else if MIN_IMPACT_FOR_DAMAGE < impactSpeed then
        let collisionAngle := atan2 dy dx
        let playerHitZone := getHitZone p3 collisionAngle
        let targetHitZone := getHitZone t3 (collisionAngle + Real.pi)
        let damage : ℤ := round ((impactSpeed - MIN_IMPACT_FOR_DAMAGE) * DAMAGE_MULTIPLIER)
        let pHealth := p3.health.set playerHitZone
          (max 0 (p3.health.get playerHitZone - (damage : ℝ) * ATTACKER_DAMAGE_RATIO))
        let tHealth := t3.health.set targetHitZone
          (max 0 (t3.health.get targetHitZone - (damage : ℝ)))
        let p4 := { p3 with health := pHealth }
        let t4 := { t3 with health := tHealth }
        (p4, t4, now,
          damagePopups ++
            [{ x := (p4.x + t4.x) / 2
               y := (p4.y + t4.y) / 2 - 20
               damage := damage
               zone := targetHitZone
               age := 0 }])
      else (p3, t3, lastCollisionTime, damagePopups)

/-- One iteration of the corner loop inside `handleWallCollisions`: the four
independent wall tests for one corner, applied to the accumulated car state
and collision flag. -/
def wallStep (s : Car × Bool) (corner : Point) : Car × Bool :=
  let s1 :=
    if corner.x < WALL_THICKNESS then
      ({ s.1 with
          x := s.1.x + (WALL_THICKNESS - corner.x)
          vx := |s.1.vx| * BOUNCE_FACTOR * COLLISION_DAMPING
          vy := s.1.vy * COLLISION_DAMPING }, true)
    else s
  let s2 :=
    if WORLD_WIDTH - WALL_THICKNESS < corner.x then
      ({ s1.1 with
          x := s1.1.x - (corner.x - (WORLD_WIDTH - WALL_THICKNESS))
          vx := -|s1.1.vx| * BOUNCE_FACTOR * COLLISION_DAMPING
          vy := s1.1.vy * COLLISION_DAMPING }, true)
    else s1
  let s3 :=
    if corner.y < WALL_THICKNESS then
      ({ s2.1 with
          y := s2.1.y + (WALL_THICKNESS - corner.y)
          vy := |s2.1.vy| * BOUNCE_FACTOR * COLLISION_DAMPING
          vx := s2.1.vx * COLLISION_DAMPING }, true)
    else s2
  let s4 :=
    if WORLD_HEIGHT - WALL_THICKNESS < corner.y then
      ({ s3.1 with
          y := s3.1.y - (corner.y - (WORLD_HEIGHT - WALL_THICKNESS))
          vy := -|s3.1.vy| * BOUNCE_FACTOR * COLLISION_DAMPING
          vx := s3.1.vx * COLLISION_DAMPING }, true)
    else s3
  s4

/-- Wall collision resolution (`handleWallCollisions`).  The corner list is
computed once before the loop, as in the source; `r` stands for the
`Math.random()` call of the final angular kick.  Returns the mutated car and
the `collided` flag the source returns. -/
def handleWallCollisions (car : Car) (r : ℝ) : Car × Bool :=
  let s := (getCarCorners car).foldl wallStep (car, false)
  if s.2 then ({ s.1 with angularVel := s.1.angularVel + (r - 0.5) * 0.1 }, s.2)
  else s

/-! ## State reconciliation (`hooks/useMultiplayer.ts`) -/

/-- The per-remote-vehicle record of the reconciliation layer
(`interface InterpolatedCar`). -/
structure InterpolatedCar where
  current : Car
  target : Car

/-- One interpolation step for a single tracked remote vehicle: the body of
the `forEach` in `interpolateOtherPlayers`, mutating `current` toward
`target`. -/
def interpolateCar (current target : Car) : Car :=
  let x := current.x + (target.x - current.x) * INTERPOLATION_FACTOR
  let y := current.y + (target.y - current.y) * INTERPOLATION_FACTOR
  let vx := current.vx + (target.vx - current.vx) * INTERPOLATION_FACTOR
  let vy := current.vy + (target.vy - current.vy) * INTERPOLATION_FACTOR
  let angleDiff := wrapAngle (target.angle - current.angle)
  let angle := current.angle + angleDiff * INTERPOLATION_FACTOR
  let angularVel :=
    current.angularVel + (target.angularVel - current.angularVel) * INTERPOLATION_FACTOR
  { current with
      x := x
      y := y
      vx := vx
      vy := vy
      angle := angle
      angularVel := angularVel
      health := target.health }

/-- Network payload for one player (`interface PlayerState`, identical in
`app/game/multiplayer.ts` and `party/server.ts`). -/
structure PlayerState where
  id : String
  x : ℝ
  y : ℝ
  vx : ℝ
  vy : ℝ
  angle : ℝ
  angularVel : ℝ
  color : String
  health : Health

/-- Convert a network snapshot to a car (`playerStateToCar`): width, height
and the static flag are reconstructed as fixed constants. -/
def playerStateToCar (state : PlayerState) : Car :=
  { x := state.x
    y := state.y
    vx := state.vx
    vy := state.vy
    angle := state.angle
    angularVel := state.angularVel
    width := 50
    height := 30
    color := state.color
    health := state.health
    isStatic := false }

/-- String-keyed partial maps model both the client's `Map<string, ...>` and
the relay's `Record<string, ...>`. -/
def StrMap (α : Type) : Type := String → Option α

/-- Map update, `m.set(k, v)` / `m[k] = v`. -/
def StrMap.insert {α : Type} (m : StrMap α) (k : String) (v : α) : StrMap α :=
  fun k' => if k' = k then some v else m k'

/-- Map deletion, `m.delete(k)` / `delete m[k]`. -/
def StrMap.erase {α : Type} (m : StrMap α) (k : String) : StrMap α :=
  fun k' => if k' = k then none else m k'

/-- The empty map (`new Map()`). -/
def StrMap.empty {α : Type} : StrMap α :=
  fun _ => none

/-- Body of the `Object.values(message.players).forEach` loop in the
`"players"` case of the client's `socket.onmessage` handler: skip the
sender's own id (`playerIdRef.current`, possibly null); for an already
tracked id keep its interpolation `current` and replace its `target`; start
a new id at its target. -/
def playersUpdateStep (selfId : Option String) (currentPlayers : StrMap InterpolatedCar)
    (newPlayers : StrMap InterpolatedCar) (p : PlayerState) : StrMap InterpolatedCar :=
  if some p.id ≠ selfId then
    let targetCar := playerStateToCar p
    match currentPlayers p.id with
    | some existing =>
        newPlayers.insert p.id { existing with target := targetCar }
    | none =>
        newPlayers.insert p.id { current := targetCar, target := targetCar }
  else newPlayers

/-- The `"players"` case of the client's `socket.onmessage` handler: rebuild
the tracked-remote map from the message's player list (`Object.values`
order) starting from an empty map; the rebuilt map replaces the old one
(`otherPlayersRef.current = newPlayers`). -/
def handlePlayersUpdate (selfId : Option String) (currentPlayers : StrMap InterpolatedCar)
    (messagePlayers : List PlayerState) : StrMap InterpolatedCar :=
  messagePlayers.foldl (playersUpdateStep selfId currentPlayers) StrMap.empty

/-- The `"player-left"` case of the client's `socket.onmessage` handler. -/
def handlePlayerLeft (players : StrMap InterpolatedCar) (id : String) :
    StrMap InterpolatedCar :=
  players.erase id

/-! ## Relay (`party/server.ts`) -/

/-- Client-to-relay messages (`type ClientMessage`). -/
inductive ClientMsg where
  | update (state : PlayerState)
  | join (color : String)
  | leave

/-- Relay-to-client messages (`type ServerMessage`).  The roster inside a
`players` broadcast is kept as a map, exactly what is serialized. -/
inductive ServerMsg where
  | players (players : StrMap PlayerState)
  | playerJoined (player : PlayerState)
  | playerLeft (id : String)

/-- The relay's `onMessage` handler.  `rx`, `ry`, `ra` stand for the three
`Math.random()` calls of the join case.  Returns the new roster, the message
broadcast to the room, and the connection ids excluded from the broadcast
(the second argument of `room.broadcast`). -/
def serverOnMessage (players : StrMap PlayerState) (senderId : String) (msg : ClientMsg)
    (rx ry ra : ℝ) : StrMap PlayerState × ServerMsg × List String :=
  match msg with
  | .join color =>
      let newPlayer : PlayerState :=
        { id := senderId
          x := 1350 + rx * 200 - 100
          y := 900 + ry * 200 - 100
          vx := 0
          vy := 0
          angle := ra * Real.pi * 2
          angularVel := 0
          color := color
          health := { front := 100, rear := 100, left := 100, right := 100 } }
      (players.insert senderId newPlayer, .playerJoined newPlayer, [senderId])
  | .update state =>
      let players' :=
        if (players senderId).isSome then players.insert senderId { state with id := senderId }
        else players
      (players', .players players', [])
  | .leave =>
      (players.erase senderId, .playerLeft senderId, [])

/-! ## Derived quantities, invariants and scenario instrumentation -/

/-- The center distance recomputed inside `handleCarCollision`. -/
def collisionDistance (p t : Car) : ℝ :=
  Real.sqrt ((t.x - p.x) * (t.x - p.x) + (t.y - p.y) * (t.y - p.y))

/-- The impact speed of `handleCarCollision`: the absolute normal component
of the relative velocity. -/
def collisionImpactSpeed (p t : Car) : ℝ :=
  |(p.vx - t.vx) * ((t.x - p.x) / collisionDistance p t) +
    (p.vy - t.vy) * ((t.y - p.y) / collisionDistance p t)|

/-- The damage number of `handleCarCollision`. -/
def collisionDamage (p t : Car) : ℤ :=
  round ((collisionImpactSpeed p t - MIN_IMPACT_FOR_DAMAGE) * DAMAGE_MULTIPLIER)

/-- The incidence angle of `handleCarCollision`: `atan2` of the
center-to-center vector. -/
def collisionIncidenceAngle (p t : Car) : ℝ :=
  atan2 (t.y - p.y) (t.x - p.x)

/-- All four health zones lie in `[0, 100]`. -/
def healthInRange (h : Health) : Prop :=
  0 ≤ h.front ∧ h.front ≤ 100 ∧ 0 ≤ h.rear ∧ h.rear ≤ 100 ∧
    0 ≤ h.left ∧ h.left ≤ 100 ∧ 0 ≤ h.right ∧ h.right ≤ 100

/-- One mutation of a single vehicle by the engine, from the vehicle's own
viewpoint: local physics integration, target (ambient) physics, wall
collision, vehicle-vehicle collision as initiator or as target, or a
reconciliation interpolation step toward a network target whose health is in
range. -/
inductive CarStep : Car → Car → Prop where
  | player (input : AnalogInput) (c : Car) : CarStep c (updatePlayerCarPhysics c input).1
  | ambient (c : Car) : CarStep c (updateTargetCarPhysics c)
  | wall (r : ℝ) (c : Car) : CarStep c (handleWallCollisions c r).1
  | collideInitiator (other : Car) (lastT : ℝ) (pop : List DamagePopup) (now r1 r2 : ℝ)
      (c : Car) : CarStep c (handleCarCollision c other lastT pop now r1 r2).1
  | collideTarget (other : Car) (lastT : ℝ) (pop : List DamagePopup) (now r1 r2 : ℝ)
      (c : Car) : CarStep c (handleCarCollision other c lastT pop now r1 r2).2.1
  | reconcile (target : Car) (c : Car) (h : healthInRange target.health) :
      CarStep c (interpolateCar c target)

/-- All four corners inside the world bounds inset by the wall thickness. -/
def cornersInBounds (car : Car) : Prop :=
  ∀ pt ∈ getCarCorners car,
    WALL_THICKNESS ≤ pt.x ∧ pt.x ≤ WORLD_WIDTH - WALL_THICKNESS ∧
      WALL_THICKNESS ≤ pt.y ∧ pt.y ≤ WORLD_HEIGHT - WALL_THICKNESS

/-- One simulation tick of the wall-containment scenario: integrate the
player car with forward-only input `f`, then resolve wall collisions with
angular-kick randomness `r` (the tick order of `updatePhysics`). -/
def forwardTick (car : Car) (f r : ℝ) : Car :=
  (handleWallCollisions
    (updatePlayerCarPhysics car { forward := f, reverse := 0, left := 0, right := 0 }).1 r).1

/-- Net positional correction one corner contributes on one axis with
drivable interval `[lo, hi]`: the two wall cases of `wallStep` on that
axis. -/
def wallShift (lo hi v : ℝ) : ℝ :=
  (if v < lo then lo - v else 0) + (if hi < v then -(v - hi) else 0)

/-! ## Angle normalization lemmas -/

theorem two_pi_pos : (0 : ℝ) < 2 * Real.pi := by
  have := Real.pi_pos
  linarith

/-- The normalized angle lies in `[-π, π]`. -/
theorem wrapAngle_mem (a : ℝ) : -Real.pi ≤ wrapAngle a ∧ wrapAngle a ≤ Real.pi := by
  have h2 := two_pi_pos
  unfold wrapAngle
  split_ifs with hgt hlt
  · have hle : (a - Real.pi) / (2 * Real.pi) ≤ ⌈(a - Real.pi) / (2 * Real.pi)⌉ :=
      Int.le_ceil _
    have hlt1 : (⌈(a - Real.pi) / (2 * Real.pi)⌉ : ℝ) < (a - Real.pi) / (2 * Real.pi) + 1 :=
      Int.ceil_lt_add_one _
    rw [div_le_iff₀ h2] at hle
    rw [show (a - Real.pi) / (2 * Real.pi) + 1 = (a - Real.pi + 2 * Real.pi) / (2 * Real.pi) by
      field_simp] at hlt1
    rw [lt_div_iff₀ h2] at hlt1
    constructor <;> nlinarith
  · have hle : (-Real.pi - a) / (2 * Real.pi) ≤ ⌈(-Real.pi - a) / (2 * Real.pi)⌉ :=
      Int.le_ceil _
    have hlt1 : (⌈(-Real.pi - a) / (2 * Real.pi)⌉ : ℝ) < (-Real.pi - a) / (2 * Real.pi) + 1 :=
      Int.ceil_lt_add_one _
    rw [div_le_iff₀ h2] at hle
    rw [show (-Real.pi - a) / (2 * Real.pi) + 1 = (-Real.pi - a + 2 * Real.pi) / (2 * Real.pi) by
      field_simp] at hlt1
    rw [lt_div_iff₀ h2] at hlt1
    constructor <;> nlinarith
  · exact ⟨le_of_not_lt hlt, le_of_not_lt hgt⟩

/-- A value already in `[-π, π]` is left unchanged by normalization. -/
theorem wrapAngle_eq_self {a : ℝ} (h1 : -Real.pi ≤ a) (h2 : a ≤ Real.pi) :
    wrapAngle a = a := by
  unfold wrapAngle
  rw [if_neg (not_lt.mpr h2), if_neg (not_lt.mpr h1)]

/-- Normalization subtracts an integer multiple of `2π`. -/
theorem wrapAngle_sub_int (a : ℝ) : ∃ k : ℤ, wrapAngle a = a - 2 * Real.pi * k := by
  unfold wrapAngle
  split_ifs
  · exact ⟨_, rfl⟩
  · exact ⟨-⌈(-Real.pi - a) / (2 * Real.pi)⌉, by push_cast; ring⟩
  · exact ⟨0, by push_cast; ring⟩

/-- Normalization is determined: if `x` differs from `y ∈ (-π, π)` by a
multiple of `2π` then `x` normalizes to `y`. -/
theorem wrapAngle_eq_of {x y : ℝ} {k : ℤ} (hxy : x = y + 2 * Real.pi * k)
    (h1 : -Real.pi < y) (h2 : y < Real.pi) : wrapAngle x = y := by
  have hpi := Real.pi_pos
  have h2p := two_pi_pos
  unfold wrapAngle
  split_ifs with hgt hlt
  · have hc : ⌈(x - Real.pi) / (2 * Real.pi)⌉ = k := by
      rw [Int.ceil_eq_iff]
      constructor
      · rw [lt_div_iff₀ h2p]
        nlinarith
      · rw [div_le_iff₀ h2p]
        nlinarith
    rw [hc, hxy]
    ring
  · have hc : ⌈(-Real.pi - x) / (2 * Real.pi)⌉ = -k := by
      rw [Int.ceil_eq_iff]
      constructor
      · rw [lt_div_iff₀ h2p]
        push_cast
        nlinarith
      · rw [div_le_iff₀ h2p]
        push_cast
        nlinarith
    rw [hc, hxy]
    push_cast
    ring
  · push_neg at hgt hlt
    have hk0 : k = 0 := by
      have hub : (k : ℝ) < 1 := by nlinarith
      have hlb : (-1 : ℝ) < k := by nlinarith
      have hub' : k < 1 := by exact_mod_cast hub
      have hlb' : -1 < k := by exact_mod_cast hlb
      omega
    rw [hxy, hk0]
    norm_num

/-! ## Hit-zone classification lemmas -/

theorem getHitZone_front_iff (car : Car) (collisionAngle : ℝ) :
    getHitZone car collisionAngle = .front ↔
      -Real.pi / 4 ≤ wrapAngle (collisionAngle - car.angle) ∧
        wrapAngle (collisionAngle - car.angle) < Real.pi / 4 := by
  unfold getHitZone
  dsimp only
  split_ifs with h1 h2 h3
  · exact iff_of_true rfl h1
  · exact iff_of_false (by decide) h1
  · exact iff_of_false (by decide) h1
  · exact iff_of_false (by decide) h1

theorem getHitZone_right_iff (car : Car) (collisionAngle : ℝ) :
    getHitZone car collisionAngle = .right ↔
      Real.pi / 4 ≤ wrapAngle (collisionAngle - car.angle) ∧
        wrapAngle (collisionAngle - car.angle) < 3 * Real.pi / 4 := by
  unfold getHitZone
  dsimp only
  split_ifs with h1 h2 h3
  · exact iff_of_false (by decide) (by rintro ⟨ha, hb⟩; linarith [h1.2])
  · exact iff_of_true rfl h2
  · exact iff_of_false (by decide) h2
  · exact iff_of_false (by decide) h2

theorem getHitZone_left_iff (car : Car) (collisionAngle : ℝ) :
    getHitZone car collisionAngle = .left ↔
      -(3 * Real.pi) / 4 ≤ wrapAngle (collisionAngle - car.angle) ∧
        wrapAngle (collisionAngle - car.angle) < -Real.pi / 4 := by
  have hpi := Real.pi_pos
  unfold getHitZone
  dsimp only
  split_ifs with h1 h2 h3
  · exact iff_of_false (by decide) (by rintro ⟨ha, hb⟩; linarith [h1.1])
  · exact iff_of_false (by decide) (by rintro ⟨ha, hb⟩; linarith [h2.1])
  · exact iff_of_true rfl h3
  · exact iff_of_false (by decide) h3

theorem getHitZone_rear_iff (car : Car) (collisionAngle : ℝ) :
    getHitZone car collisionAngle = .rear ↔
      wrapAngle (collisionAngle - car.angle) < -(3 * Real.pi) / 4 ∨
        3 * Real.pi / 4 ≤ wrapAngle (collisionAngle - car.angle) := by
  have hpi := Real.pi_pos
  unfold getHitZone
  dsimp only
  split_ifs with h1 h2 h3
  · refine iff_of_false (by decide) ?_
    rintro (hc | hc) <;> · rcases h1 with ⟨ha, hb⟩; linarith
  · refine iff_of_false (by decide) ?_
    rintro (hc | hc) <;> · rcases h2 with ⟨ha, hb⟩; linarith
  · refine iff_of_false (by decide) ?_
    rintro (hc | hc) <;> · rcases h3 with ⟨ha, hb⟩; linarith
  · refine iff_of_true rfl ?_
    push_neg at h1 h2 h3
    rcases lt_or_le (wrapAngle (collisionAngle - car.angle)) (-(3 * Real.pi) / 4) with h | h
    · exact Or.inl h
    · right
      exact h2 (h1 (h3 h))

/-- C2: hit-zone classification is a total, exhaustive function: for every
car and every collision angle, the relative angle normalized into `[-π, π]`
is bucketed into the four quadrants of width `π/2` centered on `0` (front),
`π/2` (right), `π` (rear) and `-π/2` (left), under the half-open interval
convention: each boundary angle (`±π/4`, `±3π/4`) deterministically starts
the next bucket. -/
theorem getHitZone_total_exhaustive (car : Car) (collisionAngle : ℝ) :
    (-Real.pi ≤ wrapAngle (collisionAngle - car.angle) ∧
      wrapAngle (collisionAngle - car.angle) ≤ Real.pi) ∧
    (getHitZone car collisionAngle = .front ↔
      -Real.pi / 4 ≤ wrapAngle (collisionAngle - car.angle) ∧
        wrapAngle (collisionAngle - car.angle) < Real.pi / 4) ∧
    (getHitZone car collisionAngle = .right ↔
      Real.pi / 4 ≤ wrapAngle (collisionAngle - car.angle) ∧
        wrapAngle (collisionAngle - car.angle) < 3 * Real.pi / 4) ∧
    (getHitZone car collisionAngle = .left ↔
      -(3 * Real.pi) / 4 ≤ wrapAngle (collisionAngle - car.angle) ∧
        wrapAngle (collisionAngle - car.angle) < -Real.pi / 4) ∧
    (getHitZone car collisionAngle = .rear ↔
      wrapAngle (collisionAngle - car.angle) < -(3 * Real.pi) / 4 ∨
        3 * Real.pi / 4 ≤ wrapAngle (collisionAngle - car.angle)) :=
  ⟨wrapAngle_mem _, getHitZone_front_iff car collisionAngle,
    getHitZone_right_iff car collisionAngle, getHitZone_left_iff car collisionAngle,
    getHitZone_rear_iff car collisionAngle⟩

/-! ## Reconciliation interpolation lemmas -/

/-- Shared scalar fact: a sequence contracted by `0.7` each step strictly
shrinks in absolute value while nonzero. -/
theorem contract_strict_decrease {g : ℕ → ℝ} (h : ∀ n, g (n + 1) = 0.7 * g n)
    (n : ℕ) (hne : g n ≠ 0) : |g (n + 1)| < |g n| := by
  rw [h n, abs_mul, show |(0.7 : ℝ)| = 0.7 by norm_num]
  have hpos : 0 < |g n| := abs_pos.mpr hne
  nlinarith

/-- Shared scalar fact: a sequence contracted by `0.7` each step tends to
zero in absolute value. -/
theorem contract_tendsto_zero {g : ℕ → ℝ} (h : ∀ n, g (n + 1) = 0.7 * g n) :
    Tendsto (fun n => |g n|) atTop (nhds 0) := by
  have hgeom : ∀ n, g n = 0.7 ^ n * g 0 := by
    intro n
    induction n with
    | zero => simp
    | succ m ih => rw [h m, ih, pow_succ]; ring
  have habs : ∀ n, |g n| = 0.7 ^ n * |g 0| := by
    intro n
    rw [hgeom n, abs_mul, abs_pow, show |(0.7 : ℝ)| = 0.7 by norm_num]
  have hlim : Tendsto (fun n : ℕ => (0.7 : ℝ) ^ n * |g 0|) atTop (nhds 0) := by
    have := (tendsto_pow_atTop_nhds_zero_of_lt_one (by norm_num : (0:ℝ) ≤ 0.7)
      (by norm_num : (0.7:ℝ) < 1)).mul_const |g 0|
    simpa using this
  exact hlim.congr fun n => (habs n).symm

theorem interpolateCar_x (s t : Car) :
    (interpolateCar s t).x - t.x = 0.7 * (s.x - t.x) := by
  simp only [interpolateCar, INTERPOLATION_FACTOR]
  ring

theorem interpolateCar_y (s t : Car) :
    (interpolateCar s t).y - t.y = 0.7 * (s.y - t.y) := by
  simp only [interpolateCar, INTERPOLATION_FACTOR]
  ring

theorem interpolateCar_vx (s t : Car) :
    (interpolateCar s t).vx - t.vx = 0.7 * (s.vx - t.vx) := by
  simp only [interpolateCar, INTERPOLATION_FACTOR]
  ring

theorem interpolateCar_vy (s t : Car) :
    (interpolateCar s t).vy - t.vy = 0.7 * (s.vy - t.vy) := by
  simp only [interpolateCar, INTERPOLATION_FACTOR]
  ring

theorem interpolateCar_angularVel (s t : Car) :
    (interpolateCar s t).angularVel - t.angularVel = 0.7 * (s.angularVel - t.angularVel) := by
  simp only [interpolateCar, INTERPOLATION_FACTOR]
  ring

/-- The wrapped angular offset to the target contracts by `0.7` per step. -/
theorem interpolateCar_angle_wrap (s t : Car) :
    wrapAngle (t.angle - (interpolateCar s t).angle) =
      0.7 * wrapAngle (t.angle - s.angle) := by
  obtain ⟨k, hk⟩ := wrapAngle_sub_int (t.angle - s.angle)
  obtain ⟨hml, hmr⟩ := wrapAngle_mem (t.angle - s.angle)
  have hpi := Real.pi_pos
  have hangle : (interpolateCar s t).angle =
      s.angle + wrapAngle (t.angle - s.angle) * INTERPOLATION_FACTOR := rfl
  rw [hangle]
  refine @wrapAngle_eq_of _ _ k ?_ ?_ ?_
  · simp only [INTERPOLATION_FACTOR]
    linarith [hk]
  · linarith
  · linarith

/-- C10: an interpolation step copies the target's health record verbatim
into the rendered car, whatever health values the local collision resolver
may have written into the rendered copy beforehand: such writes survive at
most until the next interpolation step. -/
theorem interpolate_health_copied_verbatim (current target : Car) (wild : Health) :
    (interpolateCar { current with health := wild } target).health = target.health :=
  rfl

/-- C5: with the target held constant, one interpolation step moves every
continuous field (x, y, vx, vy, angularVel, and angle via the shortest
wrapped angular path) to exactly `current + (target - current) × 0.3`;
iterating the step strictly decreases each field's distance to the target
whenever that distance is nonzero, and the distance tends to zero
asymptotically. -/
theorem interpolation_step_convergence (c t : Car) :
    ((interpolateCar c t).x = c.x + (t.x - c.x) * INTERPOLATION_FACTOR ∧
      (interpolateCar c t).y = c.y + (t.y - c.y) * INTERPOLATION_FACTOR ∧
      (interpolateCar c t).vx = c.vx + (t.vx - c.vx) * INTERPOLATION_FACTOR ∧
      (interpolateCar c t).vy = c.vy + (t.vy - c.vy) * INTERPOLATION_FACTOR ∧
      (interpolateCar c t).angularVel =
        c.angularVel + (t.angularVel - c.angularVel) * INTERPOLATION_FACTOR ∧
      (interpolateCar c t).angle =
        c.angle + wrapAngle (t.angle - c.angle) * INTERPOLATION_FACTOR) ∧
    ((∀ n : ℕ, ((fun s => interpolateCar s t)^[n] c).x ≠ t.x →
        |((fun s => interpolateCar s t)^[n + 1] c).x - t.x| <
          |((fun s => interpolateCar s t)^[n] c).x - t.x|) ∧
      (∀ n : ℕ, ((fun s => interpolateCar s t)^[n] c).y ≠ t.y →
        |((fun s => interpolateCar s t)^[n + 1] c).y - t.y| <
          |((fun s => interpolateCar s t)^[n] c).y - t.y|) ∧
      (∀ n : ℕ, ((fun s => interpolateCar s t)^[n] c).vx ≠ t.vx →
        |((fun s => interpolateCar s t)^[n + 1] c).vx - t.vx| <
          |((fun s => interpolateCar s t)^[n] c).vx - t.vx|) ∧
      (∀ n : ℕ, ((fun s => interpolateCar s t)^[n] c).vy ≠ t.vy →
        |((fun s => interpolateCar s t)^[n + 1] c).vy - t.vy| <
          |((fun s => interpolateCar s t)^[n] c).vy - t.vy|) ∧
      (∀ n : ℕ, ((fun s => interpolateCar s t)^[n] c).angularVel ≠ t.angularVel →
        |((fun s => interpolateCar s t)^[n + 1] c).angularVel - t.angularVel| <
          |((fun s => interpolateCar s t)^[n] c).angularVel - t.angularVel|) ∧
      (∀ n : ℕ, wrapAngle (t.angle - ((fun s => interpolateCar s t)^[n] c).angle) ≠ 0 →
        |wrapAngle (t.angle - ((fun s => interpolateCar s t)^[n + 1] c).angle)| <
          |wrapAngle (t.angle - ((fun s => interpolateCar s t)^[n] c).angle)|)) ∧
    (Tendsto (fun n => |((fun s => interpolateCar s t)^[n] c).x - t.x|) atTop (nhds 0) ∧
      Tendsto (fun n => |((fun s => interpolateCar s t)^[n] c).y - t.y|) atTop (nhds 0) ∧
      Tendsto (fun n => |((fun s => interpolateCar s t)^[n] c).vx - t.vx|) atTop (nhds 0) ∧
      Tendsto (fun n => |((fun s => interpolateCar s t)^[n] c).vy - t.vy|) atTop (nhds 0) ∧
      Tendsto (fun n => |((fun s => interpolateCar s t)^[n] c).angularVel - t.angularVel|)
        atTop (nhds 0) ∧
      Tendsto (fun n => |wrapAngle (t.angle - ((fun s => interpolateCar s t)^[n] c).angle)|)
        atTop (nhds 0)) := by
  have hx : ∀ n : ℕ, ((fun s => interpolateCar s t)^[n + 1] c).x - t.x =
      0.7 * (((fun s => interpolateCar s t)^[n] c).x - t.x) := by
    intro n
    rw [Function.iterate_succ_apply']
    exact interpolateCar_x _ t
  have hy : ∀ n : ℕ, ((fun s => interpolateCar s t)^[n + 1] c).y - t.y =
      0.7 * (((fun s => interpolateCar s t)^[n] c).y - t.y) := by
    intro n
    rw [Function.iterate_succ_apply']
    exact interpolateCar_y _ t
  have hvx : ∀ n : ℕ, ((fun s => interpolateCar s t)^[n + 1] c).vx - t.vx =
      0.7 * (((fun s => interpolateCar s t)^[n] c).vx - t.vx) := by
    intro n
    rw [Function.iterate_succ_apply']
    exact interpolateCar_vx _ t
  have hvy : ∀ n : ℕ, ((fun s => interpolateCar s t)^[n + 1] c).vy - t.vy =
      0.7 * (((fun s => interpolateCar s t)^[n] c).vy - t.vy) := by
    intro n
    rw [Function.iterate_succ_apply']
    exact interpolateCar_vy _ t
  have hav : ∀ n : ℕ, ((fun s => interpolateCar s t)^[n + 1] c).angularVel - t.angularVel =
      0.7 * (((fun s => interpolateCar s t)^[n] c).angularVel - t.angularVel) := by
    intro n
    rw [Function.iterate_succ_apply']
    exact interpolateCar_angularVel _ t
  have hang : ∀ n : ℕ, wrapAngle (t.angle - ((fun s => interpolateCar s t)^[n + 1] c).angle) =
      0.7 * wrapAngle (t.angle - ((fun s => interpolateCar s t)^[n] c).angle) := by
    intro n
    rw [Function.iterate_succ_apply']
    exact interpolateCar_angle_wrap _ t
  refine ⟨⟨rfl, rfl, rfl, rfl, rfl, rfl⟩, ?_, ?_⟩
  · refine ⟨fun n hne => ?_, fun n hne => ?_, fun n hne => ?_, fun n hne => ?_,
      fun n hne => ?_, fun n hne => ?_⟩
    · exact @contract_strict_decrease
        (fun m => ((fun s => interpolateCar s t)^[m] c).x - t.x) hx n (sub_ne_zero.mpr hne)
    · exact @contract_strict_decrease
        (fun m => ((fun s => interpolateCar s t)^[m] c).y - t.y) hy n (sub_ne_zero.mpr hne)
    · exact @contract_strict_decrease
        (fun m => ((fun s => interpolateCar s t)^[m] c).vx - t.vx) hvx n (sub_ne_zero.mpr hne)
    · exact @contract_strict_decrease
        (fun m => ((fun s => interpolateCar s t)^[m] c).vy - t.vy) hvy n (sub_ne_zero.mpr hne)
    · exact @contract_strict_decrease
        (fun m => ((fun s => interpolateCar s t)^[m] c).angularVel - t.angularVel) hav n
        (sub_ne_zero.mpr hne)
    · exact @contract_strict_decrease
        (fun m => wrapAngle (t.angle - ((fun s => interpolateCar s t)^[m] c).angle)) hang n hne
  · exact ⟨@contract_tendsto_zero (fun m => ((fun s => interpolateCar s t)^[m] c).x - t.x) hx,
      @contract_tendsto_zero (fun m => ((fun s => interpolateCar s t)^[m] c).y - t.y) hy,
      @contract_tendsto_zero (fun m => ((fun s => interpolateCar s t)^[m] c).vx - t.vx) hvx,
      @contract_tendsto_zero (fun m => ((fun s => interpolateCar s t)^[m] c).vy - t.vy) hvy,
      @contract_tendsto_zero
        (fun m => ((fun s => interpolateCar s t)^[m] c).angularVel - t.angularVel) hav,
      @contract_tendsto_zero
        (fun m => wrapAngle (t.angle - ((fun s => interpolateCar s t)^[m] c).angle)) hang⟩

/-- Witness for the strict-decrease clause of the interpolation theorem at a
concrete pair of cars: one step from x = 0 toward x = 10 strictly shrinks
the x-distance. -/
theorem interpolation_step_convergence_witness :
    |((fun s => interpolateCar s (createCar 10 0 "b" 0 false))^[0 + 1]
        (createCar 0 0 "a" 0 false)).x - (createCar 10 0 "b" 0 false).x| <
      |((fun s => interpolateCar s (createCar 10 0 "b" 0 false))^[0]
        (createCar 0 0 "a" 0 false)).x - (createCar 10 0 "b" 0 false).x| :=
  (interpolation_step_convergence (createCar 0 0 "a" 0 false)
      (createCar 10 0 "b" 0 false)).2.1.1 0
    (by simp [createCar])

/-! ## Roster-handling lemmas -/

/-- A step of the `"players"` rebuild never creates an entry under a key
that is not the processed player's id. -/
theorem playersUpdateStep_ne (selfId : Option String) (cur acc : StrMap InterpolatedCar)
    (p : PlayerState) (a : String) (h : p.id ≠ a) :
    playersUpdateStep selfId cur acc p a = acc a := by
  unfold playersUpdateStep
  have hne : ¬ a = p.id := fun he => h he.symm
  split_ifs
  · rcases hcp : cur p.id with _ | e
    · simp only [hcp, StrMap.insert, if_neg hne]
    · simp only [hcp, StrMap.insert, if_neg hne]
  · rfl

/-- C4 counterexample: a tracked remote id (`"a"`) that is missing from a
`"players"` roster update is removed by the handler, not left untouched: the
rebuilt map has no entry for it. -/
theorem players_update_omission_deletes_counterexample :
    (fun k => if k = "a"
        then some (⟨createCar 1 2 "c" 0 false, createCar 1 2 "c" 0 false⟩ : InterpolatedCar)
        else none : StrMap InterpolatedCar) "a" ≠ none ∧
    handlePlayersUpdate (some "me")
      (fun k => if k = "a"
        then some (⟨createCar 1 2 "c" 0 false, createCar 1 2 "c" 0 false⟩ : InterpolatedCar)
        else none)
      [{ id := "b", x := 0, y := 0, vx := 0, vy := 0, angle := 0, angularVel := 0,
         color := "d", health := { front := 100, rear := 100, left := 100, right := 100 } }]
      "a" = none := by
  constructor
  · simp
  · rw [handlePlayersUpdate, List.foldl_cons, List.foldl_nil, playersUpdateStep_ne]
    · rfl
    · decide

/-- C4 amended: on a full-roster `"players"` update the handler rebuilds the
tracked map from only the ids present in the update, so every id missing
from the update's player set — tracked or not — is absent afterwards: roster
snapshots do delete by omission (and an explicit `"player-left"` event also
removes its id). -/
theorem players_update_keeps_only_message_ids (selfId : Option String)
    (currentPlayers : StrMap InterpolatedCar) (messagePlayers : List PlayerState)
    (a : String) (h : ∀ p ∈ messagePlayers, p.id ≠ a) :
    handlePlayersUpdate selfId currentPlayers messagePlayers a = none := by
  unfold handlePlayersUpdate
  have haux : ∀ (l : List PlayerState) (acc : StrMap InterpolatedCar),
      (∀ p ∈ l, p.id ≠ a) → acc a = none →
      (l.foldl (playersUpdateStep selfId currentPlayers) acc) a = none := by
    intro l
    induction l with
    | nil => intro acc _ hacc; exact hacc
    | cons p tl ih =>
        intro acc hl hacc
        rw [List.foldl_cons]
        refine ih _ (fun q hq => hl q (List.mem_cons_of_mem _ hq)) ?_
        rw [playersUpdateStep_ne _ _ _ _ _ (hl p (List.mem_cons_self _ _))]
        exact hacc
  exact haux messagePlayers StrMap.empty h rfl

/-- Witness for the amended roster theorem at a concrete input: a roster
update listing only `"b"` leaves no entry for the previously tracked
`"a"`. -/
theorem players_update_keeps_only_message_ids_witness :
    handlePlayersUpdate (some "me")
      (fun k => if k = "a"
        then some (⟨createCar 3 4 "c" 0 false, createCar 3 4 "c" 0 false⟩ : InterpolatedCar)
        else none)
      [{ id := "b", x := 1, y := 1, vx := 0, vy := 0, angle := 0, angularVel := 0,
         color := "d", health := { front := 100, rear := 100, left := 100, right := 100 } }]
      "a" = none :=
  players_update_keeps_only_message_ids _ _ _ _ (by
    intro p hp
    rw [List.mem_singleton] at hp
    subst hp
    decide)

/-! ## Relay lemmas -/

/-- C9: on an `"update"` message from a sender with a roster entry, the
relay overwrites the sender's stored entry with the payload re-stamped to
the sender's connection id (any identity claimed inside the payload is
ignored), leaves every other connection's entry unchanged, and broadcasts
the full updated roster to everyone (empty exclusion list). -/
theorem server_update_restamps_and_broadcasts (players : StrMap PlayerState)
    (senderId : String) (st : PlayerState) (rx ry ra : ℝ) (s0 : PlayerState)
    (h : players senderId = some s0) :
    (serverOnMessage players senderId (.update st) rx ry ra).1 senderId =
        some { st with id := senderId } ∧
    (∀ c : String, c ≠ senderId →
      (serverOnMessage players senderId (.update st) rx ry ra).1 c = players c) ∧
    (serverOnMessage players senderId (.update st) rx ry ra).2.1 =
      ServerMsg.players (serverOnMessage players senderId (.update st) rx ry ra).1 ∧
    (serverOnMessage players senderId (.update st) rx ry ra).2.2 = [] := by
  have hs : (players senderId).isSome = true := by rw [h]; rfl
  refine ⟨?_, ?_, rfl, rfl⟩
  · simp [serverOnMessage, hs, StrMap.insert]
  · intro c hc
    simp only [serverOnMessage, hs, if_true, StrMap.insert]
    rw [if_neg hc]

/-- Witness for the relay update theorem at a concrete roster: the payload
claims id `"fake"` but the stored entry is re-stamped to the sender id
`"s"`, and the other tracked id `"o"` is untouched. -/
theorem server_update_restamps_and_broadcasts_witness :
    (serverOnMessage
        (fun k => if k = "s"
          then some { id := "s", x := 0, y := 0, vx := 0, vy := 0, angle := 0,
                      angularVel := 0, color := "c",
                      health := { front := 100, rear := 100, left := 100, right := 100 } }
          else none)
        "s"
        (.update { id := "fake", x := 5, y := 6, vx := 0, vy := 0, angle := 0,
                   angularVel := 0, color := "c",
                   health := { front := 90, rear := 100, left := 100, right := 100 } })
        0 0 0).1 "s" =
      some { id := "s", x := 5, y := 6, vx := 0, vy := 0, angle := 0,
             angularVel := 0, color := "c",
             health := { front := 90, rear := 100, left := 100, right := 100 } } :=
  (server_update_restamps_and_broadcasts _ _ _ _ _ _
      { id := "s", x := 0, y := 0, vx := 0, vy := 0, angle := 0, angularVel := 0,
        color := "c", health := { front := 100, rear := 100, left := 100, right := 100 } }
      (by simp)).1

/-! ## Zero-velocity collision lemmas -/

/-- C7 counterexample: two overlapping cars both at rest are NOT left
untouched by collision resolution: the separation step still displaces the
initiating car's position. -/
theorem zero_velocity_collision_moves_counterexample :
    (createCar 0 0 "a" 0 false).vx = 0 ∧ (createCar 0 0 "a" 0 false).vy = 0 ∧
    (createCar 10 0 "b" 0 false).vx = 0 ∧ (createCar 10 0 "b" 0 false).vy = 0 ∧
    (handleCarCollision (createCar 0 0 "a" 0 false) (createCar 10 0 "b" 0 false)
        0 [] 1000 0.5 0.5).1.x ≠ (createCar 0 0 "a" 0 false).x := by
  have h10 : Real.sqrt 100 = 10 := by
    rw [show (100 : ℝ) = 10 ^ 2 by norm_num]
    exact Real.sqrt_sq (by norm_num)
  refine ⟨rfl, rfl, rfl, rfl, ?_⟩
  simp only [handleCarCollision, checkCarCollision, createCar, CAR_WIDTH, CAR_HEIGHT,
    MIN_IMPACT_FOR_DAMAGE]
  norm_num [h10]

/-- C7 amended: given two vehicles both with zero velocity, collision
resolution applies no damage and leaves both cars' health, both cars'
velocities, the collision timestamp and the popup list unchanged (impact
speed 0 never exceeds the damage threshold) — but when the collision circles
overlap, the separation step still displaces positions and the random kicks
still perturb angular velocities. -/
theorem zero_velocity_collision_no_damage (p t : Car) (lastT : ℝ)
    (pop : List DamagePopup) (now r1 r2 : ℝ)
    (hpx : p.vx = 0) (hpy : p.vy = 0) (htx : t.vx = 0) (hty : t.vy = 0) :
    (handleCarCollision p t lastT pop now r1 r2).1.health = p.health ∧
    (handleCarCollision p t lastT pop now r1 r2).2.1.health = t.health ∧
    (handleCarCollision p t lastT pop now r1 r2).1.vx = p.vx ∧
    (handleCarCollision p t lastT pop now r1 r2).1.vy = p.vy ∧
    (handleCarCollision p t lastT pop now r1 r2).2.1.vx = t.vx ∧
    (handleCarCollision p t lastT pop now r1 r2).2.1.vy = t.vy ∧
    (handleCarCollision p t lastT pop now r1 r2).2.2.1 = lastT ∧
    (handleCarCollision p t lastT pop now r1 r2).2.2.2 = pop := by
  unfold handleCarCollision
  dsimp only
  rw [hpx, hpy, htx, hty]
  split_ifs with h1 h2 h3 h4 h5 h6 h7
  all_goals first
    | exact ⟨rfl, rfl, hpx, hpy, htx, hty, rfl, rfl⟩
    | (refine ⟨rfl, rfl, ?_, ?_, ?_, ?_, rfl, rfl⟩ <;> ring_nf)
    | (exfalso; norm_num [MIN_IMPACT_FOR_DAMAGE] at *)

/-- Witness for the zero-velocity theorem at a concrete overlapping pair. -/
theorem zero_velocity_collision_no_damage_witness :
    (handleCarCollision (createCar 0 0 "a" 0 false) (createCar 20 0 "b" 0 false)
        7 [] 500 0.3 0.6).2.2.1 = 7 :=
  (zero_velocity_collision_no_damage (createCar 0 0 "a" 0 false)
      (createCar 20 0 "b" 0 false) 7 [] 500 0.3 0.6 rfl rfl rfl rfl).2.2.2.2.2.2.1

/-! ## Static-flag lemmas -/

/-- C8 counterexample: a vehicle with `isStatic = true` is NOT exempt from
wall collision: a static car overlapping the left wall is displaced by
`handleWallCollisions` like any dynamic car. -/
theorem static_car_wall_collision_moves_counterexample :
    (createCar 10 900 "s" 0 true).isStatic = true ∧
    (handleWallCollisions (createCar 10 900 "s" 0 true) 0.5).1.x ≠
      (createCar 10 900 "s" 0 true).x := by
  refine ⟨rfl, ?_⟩
  simp only [handleWallCollisions, getCarCorners, wallStep, createCar, CAR_WIDTH, CAR_HEIGHT,
    WALL_THICKNESS, WORLD_WIDTH, WORLD_HEIGHT, BOUNCE_FACTOR, COLLISION_DAMPING,
    List.foldl_cons, List.foldl_nil, Real.cos_zero, Real.sin_zero]
  norm_num

/-- One wall-test step treats a car with a rewritten static flag exactly as
the original car, the flag passing through untouched. -/
theorem wallStep_isStatic (c : Car) (fl : Bool) (b : Bool) (pt : Point) :
    wallStep ({ c with isStatic := b }, fl) pt =
      ({ (wallStep (c, fl) pt).1 with isStatic := b }, (wallStep (c, fl) pt).2) := by
  unfold wallStep
  dsimp only
  split_ifs <;> rfl

theorem wallFoldl_isStatic (cs : List Point) (c : Car) (fl : Bool) (b : Bool) :
    cs.foldl wallStep ({ c with isStatic := b }, fl) =
      ({ (cs.foldl wallStep (c, fl)).1 with isStatic := b },
        (cs.foldl wallStep (c, fl)).2) := by
  induction cs generalizing c fl with
  | nil => rfl
  | cons pt tl ih =>
      rw [List.foldl_cons, List.foldl_cons, wallStep_isStatic]
      exact ih _ _

/-- C8 amended (wall half): `handleWallCollisions` never consults the static
flag: flipping `isStatic` changes nothing in the outcome except the flag
itself, so a static vehicle receives exactly the positional correction,
velocity reflection and angular kick a dynamic one would. -/
theorem handleWallCollisions_ignores_isStatic (car : Car) (b : Bool) (r : ℝ) :
    (handleWallCollisions { car with isStatic := b } r).1 =
      { (handleWallCollisions car r).1 with isStatic := b } ∧
    (handleWallCollisions { car with isStatic := b } r).2 =
      (handleWallCollisions car r).2 := by
  unfold handleWallCollisions
  have hc : getCarCorners { car with isStatic := b } = getCarCorners car := rfl
  rw [hc, wallFoldl_isStatic]
  dsimp only
  split_ifs <;> exact ⟨rfl, rfl⟩

/-- Car-to-car collision resolution never consults the static flag: flipping
`isStatic` on either car changes nothing in the outcome except the flags
themselves. -/
theorem handleCarCollision_ignores_isStatic (p t : Car) (bp bt : Bool) (lastT : ℝ)
    (pop : List DamagePopup) (now r1 r2 : ℝ) :
    (handleCarCollision { p with isStatic := bp } { t with isStatic := bt }
        lastT pop now r1 r2).1 =
      { (handleCarCollision p t lastT pop now r1 r2).1 with isStatic := bp } ∧
    (handleCarCollision { p with isStatic := bp } { t with isStatic := bt }
        lastT pop now r1 r2).2.1 =
      { (handleCarCollision p t lastT pop now r1 r2).2.1 with isStatic := bt } ∧
    (handleCarCollision { p with isStatic := bp } { t with isStatic := bt }
        lastT pop now r1 r2).2.2 =
      (handleCarCollision p t lastT pop now r1 r2).2.2 := by
  unfold handleCarCollision
  rw [show checkCarCollision { p with isStatic := bp } { t with isStatic := bt } =
    checkCarCollision p t from rfl]
  dsimp only
  split_ifs <;> exact ⟨rfl, rfl, rfl⟩

/-- C8 amended: the `isStatic` flag is never consulted by collision
resolution or wall collision: a vehicle with `isStatic = true` receives
exactly the same positional corrections, velocity impulses and angular kicks
as a dynamic vehicle (it is NOT exempt), the flag merely passing through. -/
theorem collision_ops_ignore_isStatic (car p t : Car) (b bp bt : Bool)
    (r lastT now r1 r2 : ℝ) (pop : List DamagePopup) :
    ((handleWallCollisions { car with isStatic := b } r).1 =
        { (handleWallCollisions car r).1 with isStatic := b } ∧
      (handleWallCollisions { car with isStatic := b } r).2 =
        (handleWallCollisions car r).2) ∧
    ((handleCarCollision { p with isStatic := bp } { t with isStatic := bt }
          lastT pop now r1 r2).1 =
        { (handleCarCollision p t lastT pop now r1 r2).1 with isStatic := bp } ∧
      (handleCarCollision { p with isStatic := bp } { t with isStatic := bt }
          lastT pop now r1 r2).2.1 =
        { (handleCarCollision p t lastT pop now r1 r2).2.1 with isStatic := bt } ∧
      (handleCarCollision { p with isStatic := bp } { t with isStatic := bt }
          lastT pop now r1 r2).2.2 =
        (handleCarCollision p t lastT pop now r1 r2).2.2) :=
  ⟨handleWallCollisions_ignores_isStatic car b r,
    handleCarCollision_ignores_isStatic p t bp bt lastT pop now r1 r2⟩

/-! ## Collision damage lemmas -/

/-- C1: whenever a vehicle-vehicle collision applies damage (the circles
overlap at a nonzero distance, the 150 ms cooldown has elapsed and the
impact speed exceeds the damage threshold 2), the damage is
`D = round((impactSpeed - 2) × 3)`; the target's hit zone loses the full
`D`, the initiator's own hit zone loses exactly `D × 0.15` with no rounding,
both clamped at 0; the new collision time is `now`; and the emitted damage
popup carries the full `D` and the target's zone. -/
theorem collision_damage_applied (p t : Car) (lastT : ℝ) (pop : List DamagePopup)
    (now r1 r2 : ℝ)
    (hcol : checkCarCollision p t)
    (hne : collisionDistance p t ≠ 0)
    (hcd : ¬ (now - lastT < 150))
    (himp : MIN_IMPACT_FOR_DAMAGE < collisionImpactSpeed p t) :
    (handleCarCollision p t lastT pop now r1 r2).1.health =
      p.health.set (getHitZone p (collisionIncidenceAngle p t))
        (max 0 (p.health.get (getHitZone p (collisionIncidenceAngle p t)) -
          (collisionDamage p t : ℝ) * ATTACKER_DAMAGE_RATIO)) ∧
    (handleCarCollision p t lastT pop now r1 r2).2.1.health =
      t.health.set (getHitZone t (collisionIncidenceAngle p t + Real.pi))
        (max 0 (t.health.get (getHitZone t (collisionIncidenceAngle p t + Real.pi)) -
          (collisionDamage p t : ℝ))) ∧
    (handleCarCollision p t lastT pop now r1 r2).2.2.1 = now ∧
    ∃ popup : DamagePopup,
      (handleCarCollision p t lastT pop now r1 r2).2.2.2 = pop ++ [popup] ∧
      popup.damage = collisionDamage p t ∧
      popup.zone = getHitZone t (collisionIncidenceAngle p t + Real.pi) := by
  unfold checkCarCollision at hcol
  dsimp only at hcol
  unfold collisionDistance at hne
  unfold collisionImpactSpeed collisionDistance at himp
  unfold handleCarCollision
  dsimp only
  rw [if_neg (show ¬¬checkCarCollision p t from not_not_intro hcol)]
  rw [if_neg (show ¬ ((p.width + t.width) / 2 * 0.85 ≤
      Real.sqrt ((t.x - p.x) * (t.x - p.x) + (t.y - p.y) * (t.y - p.y)) ∨
      Real.sqrt ((t.x - p.x) * (t.x - p.x) + (t.y - p.y) * (t.y - p.y)) = 0) from
    not_or.mpr ⟨not_le.mpr hcol, hne⟩)]
  rw [if_neg hcd, if_pos himp]
  split_ifs with hic
  · exact ⟨rfl, rfl, rfl, _, rfl, rfl, rfl⟩
  · exact ⟨rfl, rfl, rfl, _, rfl, rfl, rfl⟩

theorem sqrt_one_hundred : Real.sqrt 100 = 10 := by
  rw [show (100 : ℝ) = 10 ^ 2 by norm_num]
  exact Real.sqrt_sq (by norm_num)

/-- Witness for the damage theorem at a concrete input: the initiator moves
at speed 5 straight at a resting target 10 units away, so the target's zone
loses `round((5 - 2) × 3)` as the theorem states. -/
theorem collision_damage_applied_witness :
    (handleCarCollision { createCar 0 0 "a" 0 false with vx := 5 }
        (createCar 10 0 "b" 0 false) 0 [] 1000 0.5 0.5).2.1.health =
      (createCar 10 0 "b" 0 false).health.set
        (getHitZone (createCar 10 0 "b" 0 false)
          (collisionIncidenceAngle { createCar 0 0 "a" 0 false with vx := 5 }
              (createCar 10 0 "b" 0 false) + Real.pi))
        (max 0 ((createCar 10 0 "b" 0 false).health.get
            (getHitZone (createCar 10 0 "b" 0 false)
              (collisionIncidenceAngle { createCar 0 0 "a" 0 false with vx := 5 }
                  (createCar 10 0 "b" 0 false) + Real.pi)) -
          (collisionDamage { createCar 0 0 "a" 0 false with vx := 5 }
              (createCar 10 0 "b" 0 false) : ℝ))) :=
  (collision_damage_applied { createCar 0 0 "a" 0 false with vx := 5 }
    (createCar 10 0 "b" 0 false) 0 [] 1000 0.5 0.5
    (by
      unfold checkCarCollision createCar CAR_WIDTH CAR_HEIGHT
      dsimp only
      norm_num [sqrt_one_hundred])
    (by
      unfold collisionDistance createCar
      dsimp only
      norm_num [sqrt_one_hundred])
    (by norm_num)
    (by
      unfold collisionImpactSpeed collisionDistance createCar MIN_IMPACT_FOR_DAMAGE
      dsimp only
      norm_num [sqrt_one_hundred])).2.1

/-! ## Health range invariant -/

/-- Subtracting a nonnegative amount from one zone, clamped at 0, keeps all
zones in range. -/
theorem healthInRange_set_sub {h : Health} (z : HitZone) (d : ℝ) (hd : 0 ≤ d)
    (hh : healthInRange h) : healthInRange (h.set z (max 0 (h.get z - d))) := by
  obtain ⟨h1, h2, h3, h4, h5, h6, h7, h8⟩ := hh
  cases z <;>
    simp only [Health.set, Health.get, healthInRange] <;>
    refine ⟨?_, ?_, ?_, ?_, ?_, ?_, ?_, ?_⟩ <;>
    first
      | assumption
      | exact le_max_left 0 _
      | exact max_le (by norm_num) (by linarith)

theorem updatePlayerCarPhysics_health (c : Car) (input : AnalogInput) :
    ((updatePlayerCarPhysics c input).1).health = c.health := rfl

theorem updateTargetCarPhysics_health (c : Car) :
    (updateTargetCarPhysics c).health = c.health := rfl

theorem wallStep_health (s : Car × Bool) (pt : Point) :
    (wallStep s pt).1.health = s.1.health := by
  unfold wallStep
  dsimp only
  split_ifs <;> rfl

theorem wallFoldl_health (cs : List Point) (s : Car × Bool) :
    ((cs.foldl wallStep s).1).health = s.1.health := by
  induction cs generalizing s with
  | nil => rfl
  | cons pt tl ih => rw [List.foldl_cons, ih, wallStep_health]

theorem handleWallCollisions_health (c : Car) (r : ℝ) :
    ((handleWallCollisions c r).1).health = c.health := by
  unfold handleWallCollisions
  dsimp only
  split_ifs
  · exact wallFoldl_health _ _
  · exact wallFoldl_health _ _

/-- The initiator's health after collision resolution is either untouched or
one zone reduced by a nonnegative amount clamped at 0. -/
theorem handleCarCollision_player_health_eq (p t : Car) (lastT : ℝ)
    (pop : List DamagePopup) (now r1 r2 : ℝ) :
    (handleCarCollision p t lastT pop now r1 r2).1.health = p.health ∨
    ∃ z d, 0 ≤ d ∧
      (handleCarCollision p t lastT pop now r1 r2).1.health =
        p.health.set z (max 0 (p.health.get z - d)) := by
  unfold handleCarCollision
  dsimp only
  split_ifs with h1 h2 h3 h4 h5 h6 h7
  all_goals first
    | exact Or.inl rfl
    | (refine Or.inr ⟨_, _, ?_, rfl⟩
       refine mul_nonneg (Int.cast_nonneg.mpr ?_) (by norm_num [ ATTACKER_DAMAGE_RATIO])
       rw [round_eq]
       refine Int.floor_nonneg.mpr ?_
       unfold MIN_IMPACT_FOR_DAMAGE DAMAGE_MULTIPLIER at *
       linarith [h5])

/-- The target's health after collision resolution is either untouched or
one zone reduced by a nonnegative amount clamped at 0. -/
theorem handleCarCollision_target_health_eq (p t : Car) (lastT : ℝ)
    (pop : List DamagePopup) (now r1 r2 : ℝ) :
    (handleCarCollision p t lastT pop now r1 r2).2.1.health = t.health ∨
    ∃ z d, 0 ≤ d ∧
      (handleCarCollision p t lastT pop now r1 r2).2.1.health =
        t.health.set z (max 0 (t.health.get z - d)) := by
  unfold handleCarCollision
  dsimp only
  split_ifs with h1 h2 h3 h4 h5 h6 h7
  all_goals first
    | exact Or.inl rfl
    | (refine Or.inr ⟨_, _, ?_, rfl⟩
       refine Int.cast_nonneg.mpr ?_
       rw [round_eq]
       refine Int.floor_nonneg.mpr ?_
       unfold MIN_IMPACT_FOR_DAMAGE DAMAGE_MULTIPLIER at *
       linarith [h5])

theorem carStep_preserves_healthInRange {a b : Car} (hstep : CarStep a b)
    (hh : healthInRange a.health) : healthInRange b.health := by
  cases hstep with
  | player input => rw [updatePlayerCarPhysics_health]; exact hh
  | ambient => rw [updateTargetCarPhysics_health]; exact hh
  | wall r => rw [handleWallCollisions_health]; exact hh
  | collideInitiator other lastT pop now r1 r2 =>
      rcases handleCarCollision_player_health_eq a other lastT pop now r1 r2 with
        he | ⟨z, d, hd, he⟩
      · rw [he]; exact hh
      · rw [he]; exact healthInRange_set_sub z d hd hh
  | collideTarget other lastT pop now r1 r2 =>
      rcases handleCarCollision_target_health_eq other a lastT pop now r1 r2 with
        he | ⟨z, d, hd, he⟩
      · rw [he]; exact hh
      · rw [he]; exact healthInRange_set_sub z d hd hh
  | reconcile target c h =>
      exact h

/-- C3: starting from creation at spawn (all zones at 100), every sequence
of engine operations — physics integration, vehicle-vehicle collision
resolution as either party, wall collision, reconciliation interpolation
(toward targets whose own zones are in range) — keeps each of the four
health zones within `[0, 100]`. -/
theorem health_zones_stay_in_range (x y : ℝ) (color : String) (angle : ℝ) (st : Bool)
    (c : Car) (h : Relation.ReflTransGen CarStep (createCar x y color angle st) c) :
    healthInRange c.health := by
  induction h with
  | refl => exact by unfold createCar healthInRange; norm_num
  | tail _ hstep ih => exact carStep_preserves_healthInRange hstep ih

/-- Witness: a freshly created car driven into a wall collision keeps its
zones in `[0, 100]`. -/
theorem health_zones_stay_in_range_witness :
    healthInRange ((handleWallCollisions (createCar 50 50 "w" 0 false) 0.5).1).health :=
  health_zones_stay_in_range 50 50 "w" 0 false _
    (Relation.ReflTransGen.single (CarStep.wall 0.5 (createCar 50 50 "w" 0 false)))

/-! ## Wall containment: bound lemmas -/

theorem abs_sin_le_abs_self (x : ℝ) : |Real.sin x| ≤ |x| := by
  rcases eq_or_ne x 0 with h | h
  · simp [h]
  · exact (Real.abs_sin_lt_abs h).le

theorem abs_cos_sub_cos_le (p q : ℝ) : |Real.cos p - Real.cos q| ≤ |p - q| := by
  rw [Real.cos_sub_cos]
  have h1 : |Real.sin ((p + q) / 2)| ≤ 1 := Real.abs_sin_le_one _
  have h2 : |Real.sin ((p - q) / 2)| ≤ |(p - q) / 2| := abs_sin_le_abs_self _
  have h3 : |(p - q) / 2| = |p - q| / 2 := by rw [abs_div]; norm_num
  rw [abs_mul, abs_mul]
  rw [h3] at h2
  have h4 : |(-2 : ℝ)| = 2 := by norm_num
  rw [h4]
  nlinarith [abs_nonneg (Real.sin ((p + q) / 2)), abs_nonneg (Real.sin ((p - q) / 2)),
    abs_nonneg (p - q)]

theorem abs_sin_sub_sin_le (p q : ℝ) : |Real.sin p - Real.sin q| ≤ |p - q| := by
  rw [Real.sin_sub_sin]
  have h1 : |Real.cos ((p + q) / 2)| ≤ 1 := Real.abs_cos_le_one _
  have h2 : |Real.sin ((p - q) / 2)| ≤ |(p - q) / 2| := abs_sin_le_abs_self _
  have h3 : |(p - q) / 2| = |p - q| / 2 := by rw [abs_div]; norm_num
  rw [abs_mul, abs_mul]
  rw [h3] at h2
  have h4 : |(2 : ℝ)| = 2 := by norm_num
  rw [h4]
  nlinarith [abs_nonneg (Real.sin ((p - q) / 2)), abs_nonneg (Real.cos ((p + q) / 2)),
    abs_nonneg (p - q)]

theorem abs_le_sqrt_add_sq (a b : ℝ) : |a| ≤ Real.sqrt (a * a + b * b) := by
  rw [← Real.sqrt_mul_self_eq_abs]
  exact Real.sqrt_le_sqrt (by nlinarith [mul_self_nonneg b])

/-- The speed clamp of the integrator bounds the first velocity component by
`MAX_SPEED`. -/
theorem clamp_abs_le_fst (a b : ℝ) :
    |if MAX_SPEED < Real.sqrt (a * a + b * b) then a / Real.sqrt (a * a + b * b) * MAX_SPEED
      else a| ≤ MAX_SPEED := by
  have ha : |a| ≤ Real.sqrt (a * a + b * b) := abs_le_sqrt_add_sq a b
  split_ifs with hc
  · have hs : 0 < Real.sqrt (a * a + b * b) := lt_trans (by norm_num [MAX_SPEED]) hc
    rw [abs_mul, abs_div, abs_of_nonneg hs.le,
      show |MAX_SPEED| = MAX_SPEED by norm_num [MAX_SPEED]]
    have hdiv : |a| / Real.sqrt (a * a + b * b) ≤ 1 := (div_le_one hs).mpr ha
    calc |a| / Real.sqrt (a * a + b * b) * MAX_SPEED ≤ 1 * MAX_SPEED :=
          mul_le_mul_of_nonneg_right hdiv (by norm_num [MAX_SPEED])
      _ = MAX_SPEED := one_mul _
  · push_neg at hc
    exact ha.trans hc

/-- The speed clamp of the integrator bounds the second velocity component by
`MAX_SPEED`. -/
theorem clamp_abs_le_snd (a b : ℝ) :
    |if MAX_SPEED < Real.sqrt (a * a + b * b) then b / Real.sqrt (a * a + b * b) * MAX_SPEED
      else b| ≤ MAX_SPEED := by
  have ha : |b| ≤ Real.sqrt (a * a + b * b) := by
    rw [show a * a + b * b = b * b + a * a by ring]
    exact abs_le_sqrt_add_sq b a
  split_ifs with hc
  · have hs : 0 < Real.sqrt (a * a + b * b) := lt_trans (by norm_num [MAX_SPEED]) hc
    rw [abs_mul, abs_div, abs_of_nonneg hs.le,
      show |MAX_SPEED| = MAX_SPEED by norm_num [MAX_SPEED]]
    have hdiv : |b| / Real.sqrt (a * a + b * b) ≤ 1 := (div_le_one hs).mpr ha
    calc |b| / Real.sqrt (a * a + b * b) * MAX_SPEED ≤ 1 * MAX_SPEED :=
          mul_le_mul_of_nonneg_right hdiv (by norm_num [MAX_SPEED])
      _ = MAX_SPEED := one_mul _
  · push_neg at hc
    exact ha.trans hc

/-- The angular clamp and angular friction bound the integrated angular
velocity by `MAX_ANGULAR_VEL`. -/
theorem clamp_ang_abs_le (w : ℝ) :
    |max (-MAX_ANGULAR_VEL) (min MAX_ANGULAR_VEL w) * ANGULAR_FRICTION| ≤
      MAX_ANGULAR_VEL := by
  have h1 : max (-MAX_ANGULAR_VEL) (min MAX_ANGULAR_VEL w) ≤ MAX_ANGULAR_VEL :=
    max_le (by norm_num [MAX_ANGULAR_VEL]) (min_le_left _ _)
  have h2 : -MAX_ANGULAR_VEL ≤ max (-MAX_ANGULAR_VEL) (min MAX_ANGULAR_VEL w) :=
    le_max_left _ _
  rw [abs_mul, show |ANGULAR_FRICTION| = ANGULAR_FRICTION by norm_num [ANGULAR_FRICTION]]
  have h3 : |max (-MAX_ANGULAR_VEL) (min MAX_ANGULAR_VEL w)| ≤ MAX_ANGULAR_VEL :=
    abs_le.mpr ⟨h2, h1⟩
  have h4 : (0:ℝ) ≤ |max (-MAX_ANGULAR_VEL) (min MAX_ANGULAR_VEL w)| := abs_nonneg _
  unfold MAX_ANGULAR_VEL ANGULAR_FRICTION at *
  nlinarith

/-- One integrator tick rotates the car by some `a` with `|a| ≤ 0.08` and
moves it by its new velocity `(u, v)` with `|u|, |v| ≤ MAX_SPEED`, leaving
width and height untouched. -/
theorem updatePlayerCarPhysics_decomp (car : Car) (input : AnalogInput) :
    ∃ a u v : ℝ, |a| ≤ MAX_ANGULAR_VEL ∧ |u| ≤ MAX_SPEED ∧ |v| ≤ MAX_SPEED ∧
      (updatePlayerCarPhysics car input).1 =
        { car with angularVel := a, angle := car.angle + a, vx := u, vy := v,
                   x := car.x + u, y := car.y + v } := by
  unfold updatePlayerCarPhysics
  dsimp only
  refine ⟨_, _, _, ?_, ?_, ?_, rfl⟩
  · exact clamp_ang_abs_le _
  · exact clamp_abs_le_fst _ _
  · exact clamp_abs_le_snd _ _

set_option maxHeartbeats 1000000 in
/-- After one integrator tick from an in-bounds pose, every corner is within
the inset bounds inflated by 12 world units. -/
theorem tick_corners_inflated (car : Car) (hw : car.width = CAR_WIDTH)
    (hh : car.height = CAR_HEIGHT) (hb : cornersInBounds car) (input : AnalogInput) :
    ∀ pt ∈ getCarCorners (updatePlayerCarPhysics car input).1,
      WALL_THICKNESS - 12 ≤ pt.x ∧ pt.x ≤ WORLD_WIDTH - WALL_THICKNESS + 12 ∧
        WALL_THICKNESS - 12 ≤ pt.y ∧ pt.y ≤ WORLD_HEIGHT - WALL_THICKNESS + 12 := by
  obtain ⟨a, u, v, ha, hu, hv, heq⟩ := updatePlayerCarPhysics_decomp car input
  rw [heq]
  unfold cornersInBounds at hb
  have hb1 := hb
    { x := car.x + Real.cos car.angle * (car.width / 2) -
        Real.sin car.angle * (car.height / 2),
      y := car.y + Real.sin car.angle * (car.width / 2) +
        Real.cos car.angle * (car.height / 2) }
    (by unfold getCarCorners; dsimp only; exact List.mem_cons_self _ _)
  have hb2 := hb
    { x := car.x + Real.cos car.angle * (car.width / 2) +
        Real.sin car.angle * (car.height / 2),
      y := car.y + Real.sin car.angle * (car.width / 2) -
        Real.cos car.angle * (car.height / 2) }
    (by unfold getCarCorners; dsimp only
        exact List.mem_cons_of_mem _ (List.mem_cons_self _ _))
  have hb3 := hb
    { x := car.x - Real.cos car.angle * (car.width / 2) +
        Real.sin car.angle * (car.height / 2),
      y := car.y - Real.sin car.angle * (car.width / 2) -
        Real.cos car.angle * (car.height / 2) }
    (by unfold getCarCorners; dsimp only
        exact List.mem_cons_of_mem _ (List.mem_cons_of_mem _ (List.mem_cons_self _ _)))
  have hb4 := hb
    { x := car.x - Real.cos car.angle * (car.width / 2) -
        Real.sin car.angle * (car.height / 2),
      y := car.y - Real.sin car.angle * (car.width / 2) +
        Real.cos car.angle * (car.height / 2) }
    (by unfold getCarCorners; dsimp only
        exact List.mem_cons_of_mem _ (List.mem_cons_of_mem _ (List.mem_cons_of_mem _
          (List.mem_cons_self _ _))))
  dsimp only at hb1 hb2 hb3 hb4
  have hcos := abs_cos_sub_cos_le (car.angle + a) car.angle
  have hsin := abs_sin_sub_sin_le (car.angle + a) car.angle
  rw [show car.angle + a - car.angle = a by ring] at hcos hsin
  obtain ⟨ha1, ha2⟩ := abs_le.mp ha
  obtain ⟨hu1, hu2⟩ := abs_le.mp hu
  obtain ⟨hv1, hv2⟩ := abs_le.mp hv
  obtain ⟨hc1, hc2⟩ := abs_le.mp (hcos.trans ha)
  obtain ⟨hs1, hs2⟩ := abs_le.mp (hsin.trans ha)
  intro pt hpt
  unfold getCarCorners at hpt
  dsimp only at hpt
  rw [hw, hh] at hb1 hb2 hb3 hb4 hpt
  unfold CAR_WIDTH CAR_HEIGHT WALL_THICKNESS WORLD_WIDTH WORLD_HEIGHT at *
  unfold MAX_SPEED MAX_ANGULAR_VEL at *
  simp only [List.mem_cons, List.not_mem_nil, or_false] at hpt
  have hCa := Real.abs_cos_le_one car.angle
  have hSa := Real.abs_sin_le_one car.angle
  obtain ⟨hCa1, hCa2⟩ := abs_le.mp hCa
  obtain ⟨hSa1, hSa2⟩ := abs_le.mp hSa
  rcases hpt with h | h | h | h <;> subst h <;>
    refine ⟨?_, ?_, ?_, ?_⟩ <;> dsimp only <;> linarith [hb1.1, hb1.2.1, hb1.2.2.1,
      hb1.2.2.2, hb2.1, hb2.2.1, hb2.2.2.1, hb2.2.2.2, hb3.1, hb3.2.1, hb3.2.2.1,
      hb3.2.2.2, hb4.1, hb4.2.1, hb4.2.2.1, hb4.2.2.2]

theorem wallStep_x (s : Car × Bool) (pt : Point) :
    (wallStep s pt).1.x =
      s.1.x + wallShift WALL_THICKNESS (WORLD_WIDTH - WALL_THICKNESS) pt.x := by
  unfold wallStep wallShift
  dsimp only
  split_ifs <;> ring

theorem wallStep_y (s : Car × Bool) (pt : Point) :
    (wallStep s pt).1.y =
      s.1.y + wallShift WALL_THICKNESS (WORLD_HEIGHT - WALL_THICKNESS) pt.y := by
  unfold wallStep wallShift
  dsimp only
  split_ifs <;> ring

theorem wallStep_angle (s : Car × Bool) (pt : Point) :
    (wallStep s pt).1.angle = s.1.angle := by
  unfold wallStep
  dsimp only
  split_ifs <;> rfl

theorem wallStep_width (s : Car × Bool) (pt : Point) :
    (wallStep s pt).1.width = s.1.width := by
  unfold wallStep
  dsimp only
  split_ifs <;> rfl

theorem wallStep_height (s : Car × Bool) (pt : Point) :
    (wallStep s pt).1.height = s.1.height := by
  unfold wallStep
  dsimp only
  split_ifs <;> rfl

theorem wallFoldl_x (cs : List Point) (s : Car × Bool) :
    ((cs.foldl wallStep s).1).x =
      s.1.x + (cs.map (fun pt =>
        wallShift WALL_THICKNESS (WORLD_WIDTH - WALL_THICKNESS) pt.x)).sum := by
  induction cs generalizing s with
  | nil => simp
  | cons pt tl ih =>
      rw [List.foldl_cons, ih, wallStep_x, List.map_cons, List.sum_cons]
      ring

theorem wallFoldl_y (cs : List Point) (s : Car × Bool) :
    ((cs.foldl wallStep s).1).y =
      s.1.y + (cs.map (fun pt =>
        wallShift WALL_THICKNESS (WORLD_HEIGHT - WALL_THICKNESS) pt.y)).sum := by
  induction cs generalizing s with
  | nil => simp
  | cons pt tl ih =>
      rw [List.foldl_cons, ih, wallStep_y, List.map_cons, List.sum_cons]
      ring

theorem wallFoldl_angle (cs : List Point) (s : Car × Bool) :
    ((cs.foldl wallStep s).1).angle = s.1.angle := by
  induction cs generalizing s with
  | nil => rfl
  | cons pt tl ih => rw [List.foldl_cons, ih, wallStep_angle]

theorem wallFoldl_width (cs : List Point) (s : Car × Bool) :
    ((cs.foldl wallStep s).1).width = s.1.width := by
  induction cs generalizing s with
  | nil => rfl
  | cons pt tl ih => rw [List.foldl_cons, ih, wallStep_width]

theorem wallFoldl_height (cs : List Point) (s : Car × Bool) :
    ((cs.foldl wallStep s).1).height = s.1.height := by
  induction cs generalizing s with
  | nil => rfl
  | cons pt tl ih => rw [List.foldl_cons, ih, wallStep_height]

/-- The pose fields after wall resolution: position shifted by the summed
corner corrections, angle, width and height untouched. -/
theorem handleWallCollisions_pose (car : Car) (r : ℝ) :
    (handleWallCollisions car r).1.x =
      car.x + ((getCarCorners car).map (fun pt =>
        wallShift WALL_THICKNESS (WORLD_WIDTH - WALL_THICKNESS) pt.x)).sum ∧
    (handleWallCollisions car r).1.y =
      car.y + ((getCarCorners car).map (fun pt =>
        wallShift WALL_THICKNESS (WORLD_HEIGHT - WALL_THICKNESS) pt.y)).sum ∧
    (handleWallCollisions car r).1.angle = car.angle ∧
    (handleWallCollisions car r).1.width = car.width ∧
    (handleWallCollisions car r).1.height = car.height := by
  unfold handleWallCollisions
  dsimp only
  split_ifs <;>
    exact ⟨wallFoldl_x _ _, wallFoldl_y _ _, wallFoldl_angle _ _, wallFoldl_width _ _,
      wallFoldl_height _ _⟩

theorem wallShift_left (lo hi v : ℝ) (h8 : lo - 12 ≤ v) (hnr : ¬ hi < v) :
    0 ≤ wallShift lo hi v ∧ wallShift lo hi v ≤ 12 ∧ lo ≤ v + wallShift lo hi v := by
  unfold wallShift
  rw [if_neg hnr]
  split_ifs with h <;> constructor <;> try constructor
  all_goals linarith

theorem wallShift_right (lo hi v : ℝ) (h8 : v ≤ hi + 12) (hnl : ¬ v < lo) :
    -12 ≤ wallShift lo hi v ∧ wallShift lo hi v ≤ 0 ∧ v + wallShift lo hi v ≤ hi := by
  unfold wallShift
  rw [if_neg hnl]
  split_ifs with h <;> constructor <;> try constructor
  all_goals linarith

theorem wallShift_zero (lo hi v : ℝ) (h1 : ¬ v < lo) (h2 : ¬ hi < v) :
    wallShift lo hi v = 0 := by
  unfold wallShift
  rw [if_neg h1, if_neg h2]
  ring

/-- Arithmetic core of wall containment on one axis: four corner
coordinates, each within the inflated band and within 40 of the center,
end up inside `[lo, hi]` after the correction sum is applied. -/
theorem wallShift_core (lo hi cx x1 x2 x3 x4 : ℝ) (hgap : lo + 128 ≤ hi)
    (hb1 : lo - 12 ≤ x1) (hb1' : x1 ≤ hi + 12)
    (hb2 : lo - 12 ≤ x2) (hb2' : x2 ≤ hi + 12)
    (hb3 : lo - 12 ≤ x3) (hb3' : x3 ≤ hi + 12)
    (hb4 : lo - 12 ≤ x4) (hb4' : x4 ≤ hi + 12)
    (ho1 : |x1 - cx| ≤ 40) (ho2 : |x2 - cx| ≤ 40)
    (ho3 : |x3 - cx| ≤ 40) (ho4 : |x4 - cx| ≤ 40) :
    (lo ≤ x1 + (wallShift lo hi x1 + (wallShift lo hi x2 + (wallShift lo hi x3 +
        (wallShift lo hi x4 + 0)))) ∧
      x1 + (wallShift lo hi x1 + (wallShift lo hi x2 + (wallShift lo hi x3 +
        (wallShift lo hi x4 + 0)))) ≤ hi) ∧
    (lo ≤ x2 + (wallShift lo hi x1 + (wallShift lo hi x2 + (wallShift lo hi x3 +
        (wallShift lo hi x4 + 0)))) ∧
      x2 + (wallShift lo hi x1 + (wallShift lo hi x2 + (wallShift lo hi x3 +
        (wallShift lo hi x4 + 0)))) ≤ hi) ∧
    (lo ≤ x3 + (wallShift lo hi x1 + (wallShift lo hi x2 + (wallShift lo hi x3 +
        (wallShift lo hi x4 + 0)))) ∧
      x3 + (wallShift lo hi x1 + (wallShift lo hi x2 + (wallShift lo hi x3 +
        (wallShift lo hi x4 + 0)))) ≤ hi) ∧
    (lo ≤ x4 + (wallShift lo hi x1 + (wallShift lo hi x2 + (wallShift lo hi x3 +
        (wallShift lo hi x4 + 0)))) ∧
      x4 + (wallShift lo hi x1 + (wallShift lo hi x2 + (wallShift lo hi x3 +
        (wallShift lo hi x4 + 0)))) ≤ hi) := by
  obtain ⟨ho1l, ho1r⟩ := abs_le.mp ho1
  obtain ⟨ho2l, ho2r⟩ := abs_le.mp ho2
  obtain ⟨ho3l, ho3r⟩ := abs_le.mp ho3
  obtain ⟨ho4l, ho4r⟩ := abs_le.mp ho4
  by_cases hL : x1 < lo ∨ x2 < lo ∨ x3 < lo ∨ x4 < lo
  · by_cases hR : hi < x1 ∨ hi < x2 ∨ hi < x3 ∨ hi < x4
    · exfalso
      rcases hL with h | h | h | h <;> rcases hR with h' | h' | h' | h' <;> linarith
    · push_neg at hR
      obtain ⟨hR1, hR2, hR3, hR4⟩ := hR
      have f1 := wallShift_left lo hi x1 hb1 (not_lt.mpr hR1)
      have f2 := wallShift_left lo hi x2 hb2 (not_lt.mpr hR2)
      have f3 := wallShift_left lo hi x3 hb3 (not_lt.mpr hR3)
      have f4 := wallShift_left lo hi x4 hb4 (not_lt.mpr hR4)
      rcases hL with h | h | h | h <;>
        refine ⟨⟨?_, ?_⟩, ⟨?_, ?_⟩, ⟨?_, ?_⟩, ⟨?_, ?_⟩⟩ <;>
        linarith [f1.1, f1.2.1, f1.2.2, f2.1, f2.2.1, f2.2.2, f3.1, f3.2.1, f3.2.2,
          f4.1, f4.2.1, f4.2.2]
  · push_neg at hL
    obtain ⟨hL1, hL2, hL3, hL4⟩ := hL
    by_cases hR : hi < x1 ∨ hi < x2 ∨ hi < x3 ∨ hi < x4
    · have f1 := wallShift_right lo hi x1 hb1' (not_lt.mpr hL1)
      have f2 := wallShift_right lo hi x2 hb2' (not_lt.mpr hL2)
      have f3 := wallShift_right lo hi x3 hb3' (not_lt.mpr hL3)
      have f4 := wallShift_right lo hi x4 hb4' (not_lt.mpr hL4)
      rcases hR with h | h | h | h <;>
        refine ⟨⟨?_, ?_⟩, ⟨?_, ?_⟩, ⟨?_, ?_⟩, ⟨?_, ?_⟩⟩ <;>
        linarith [f1.1, f1.2.1, f1.2.2, f2.1, f2.2.1, f2.2.2, f3.1, f3.2.1, f3.2.2,
          f4.1, f4.2.1, f4.2.2]
    · push_neg at hR
      obtain ⟨hR1, hR2, hR3, hR4⟩ := hR
      rw [wallShift_zero lo hi x1 (not_lt.mpr hL1) (not_lt.mpr hR1),
        wallShift_zero lo hi x2 (not_lt.mpr hL2) (not_lt.mpr hR2),
        wallShift_zero lo hi x3 (not_lt.mpr hL3) (not_lt.mpr hR3),
        wallShift_zero lo hi x4 (not_lt.mpr hL4) (not_lt.mpr hR4)]
      refine ⟨⟨?_, ?_⟩, ⟨?_, ?_⟩, ⟨?_, ?_⟩, ⟨?_, ?_⟩⟩ <;> linarith

set_option maxHeartbeats 1000000 in
/-- After wall resolution from a pose whose corners are within the inflated
band, every corner is inside the inset world bounds. -/
theorem handleWallCollisions_contains (car : Car) (hw : car.width = CAR_WIDTH)
    (hh : car.height = CAR_HEIGHT)
    (hb : ∀ pt ∈ getCarCorners car,
      WALL_THICKNESS - 12 ≤ pt.x ∧ pt.x ≤ WORLD_WIDTH - WALL_THICKNESS + 12 ∧
        WALL_THICKNESS - 12 ≤ pt.y ∧ pt.y ≤ WORLD_HEIGHT - WALL_THICKNESS + 12)
    (r : ℝ) : cornersInBounds (handleWallCollisions car r).1 := by
  obtain ⟨hx, hy, hang, hwid, hhei⟩ := handleWallCollisions_pose car r
  obtain ⟨hCa1, hCa2⟩ := abs_le.mp (Real.abs_cos_le_one car.angle)
  obtain ⟨hSa1, hSa2⟩ := abs_le.mp (Real.abs_sin_le_one car.angle)
  have hb1 := hb
    { x := car.x + Real.cos car.angle * (car.width / 2) -
        Real.sin car.angle * (car.height / 2),
      y := car.y + Real.sin car.angle * (car.width / 2) +
        Real.cos car.angle * (car.height / 2) }
    (by unfold getCarCorners; dsimp only; exact List.mem_cons_self _ _)
  have hb2 := hb
    { x := car.x + Real.cos car.angle * (car.width / 2) +
        Real.sin car.angle * (car.height / 2),
      y := car.y + Real.sin car.angle * (car.width / 2) -
        Real.cos car.angle * (car.height / 2) }
    (by unfold getCarCorners; dsimp only
        exact List.mem_cons_of_mem _ (List.mem_cons_self _ _))
  have hb3 := hb
    { x := car.x - Real.cos car.angle * (car.width / 2) +
        Real.sin car.angle * (car.height / 2),
      y := car.y - Real.sin car.angle * (car.width / 2) -
        Real.cos car.angle * (car.height / 2) }
    (by unfold getCarCorners; dsimp only
        exact List.mem_cons_of_mem _ (List.mem_cons_of_mem _ (List.mem_cons_self _ _)))
  have hb4 := hb
    { x := car.x - Real.cos car.angle * (car.width / 2) -
        Real.sin car.angle * (car.height / 2),
      y := car.y - Real.sin car.angle * (car.width / 2) +
        Real.cos car.angle * (car.height / 2) }
    (by unfold getCarCorners; dsimp only
        exact List.mem_cons_of_mem _ (List.mem_cons_of_mem _ (List.mem_cons_of_mem _
          (List.mem_cons_self _ _))))
  dsimp only at hb1 hb2 hb3 hb4
  rw [hw, hh] at hb1 hb2 hb3 hb4
  have hcx := wallShift_core WALL_THICKNESS (WORLD_WIDTH - WALL_THICKNESS) car.x
    (car.x + Real.cos car.angle * (CAR_WIDTH / 2) - Real.sin car.angle * (CAR_HEIGHT / 2))
    (car.x + Real.cos car.angle * (CAR_WIDTH / 2) + Real.sin car.angle * (CAR_HEIGHT / 2))
    (car.x - Real.cos car.angle * (CAR_WIDTH / 2) + Real.sin car.angle * (CAR_HEIGHT / 2))
    (car.x - Real.cos car.angle * (CAR_WIDTH / 2) - Real.sin car.angle * (CAR_HEIGHT / 2))
    (by unfold WALL_THICKNESS WORLD_WIDTH; norm_num)
    hb1.1 hb1.2.1 hb2.1 hb2.2.1 hb3.1 hb3.2.1 hb4.1 hb4.2.1
    (by rw [abs_le]; unfold CAR_WIDTH CAR_HEIGHT; constructor <;> linarith)
    (by rw [abs_le]; unfold CAR_WIDTH CAR_HEIGHT; constructor <;> linarith)
    (by rw [abs_le]; unfold CAR_WIDTH CAR_HEIGHT; constructor <;> linarith)
    (by rw [abs_le]; unfold CAR_WIDTH CAR_HEIGHT; constructor <;> linarith)
  have hcy := wallShift_core WALL_THICKNESS (WORLD_HEIGHT - WALL_THICKNESS) car.y
    (car.y + Real.sin car.angle * (CAR_WIDTH / 2) + Real.cos car.angle * (CAR_HEIGHT / 2))
    (car.y + Real.sin car.angle * (CAR_WIDTH / 2) - Real.cos car.angle * (CAR_HEIGHT / 2))
    (car.y - Real.sin car.angle * (CAR_WIDTH / 2) - Real.cos car.angle * (CAR_HEIGHT / 2))
    (car.y - Real.sin car.angle * (CAR_WIDTH / 2) + Real.cos car.angle * (CAR_HEIGHT / 2))
    (by unfold WALL_THICKNESS WORLD_HEIGHT; norm_num)
    hb1.2.2.1 hb1.2.2.2 hb2.2.2.1 hb2.2.2.2 hb3.2.2.1 hb3.2.2.2 hb4.2.2.1 hb4.2.2.2
    (by rw [abs_le]; unfold CAR_WIDTH CAR_HEIGHT; constructor <;> linarith)
    (by rw [abs_le]; unfold CAR_WIDTH CAR_HEIGHT; constructor <;> linarith)
    (by rw [abs_le]; unfold CAR_WIDTH CAR_HEIGHT; constructor <;> linarith)
    (by rw [abs_le]; unfold CAR_WIDTH CAR_HEIGHT; constructor <;> linarith)
  intro pt hpt
  unfold getCarCorners at hpt
  dsimp only at hpt
  rw [hwid, hhei, hang, hx, hy, hw, hh] at hpt
  simp only [getCarCorners, List.map_cons, List.map_nil, List.sum_cons, List.sum_nil] at hpt
  rw [hw, hh] at hpt
  simp only [List.mem_cons, List.not_mem_nil, or_false] at hpt
  rcases hpt with rfl | rfl | rfl | rfl <;> refine ⟨?_, ?_, ?_, ?_⟩ <;> dsimp only <;>
    linarith [hcx.1.1, hcx.1.2, hcx.2.1.1, hcx.2.1.2, hcx.2.2.1.1, hcx.2.2.1.2,
      hcx.2.2.2.1, hcx.2.2.2.2, hcy.1.1, hcy.1.2, hcy.2.1.1, hcy.2.1.2, hcy.2.2.1.1,
      hcy.2.2.1.2, hcy.2.2.2.1, hcy.2.2.2.2]

theorem updatePlayerCarPhysics_width (c : Car) (input : AnalogInput) :
    ((updatePlayerCarPhysics c input).1).width = c.width := rfl

theorem updatePlayerCarPhysics_height (c : Car) (input : AnalogInput) :
    ((updatePlayerCarPhysics c input).1).height = c.height := rfl

/-- One forward-input tick preserves the car's dimensions and keeps every
corner inside the inset world bounds. -/
theorem forwardTick_preserves (car : Car) (hw : car.width = CAR_WIDTH)
    (hh : car.height = CAR_HEIGHT) (hb : cornersInBounds car) (f r : ℝ) :
    (forwardTick car f r).width = CAR_WIDTH ∧ (forwardTick car f r).height = CAR_HEIGHT ∧
      cornersInBounds (forwardTick car f r) := by
  unfold forwardTick
  refine ⟨?_, ?_, ?_⟩
  · rw [(handleWallCollisions_pose _ _).2.2.2.1, updatePlayerCarPhysics_width, hw]
  · rw [(handleWallCollisions_pose _ _).2.2.2.2, updatePlayerCarPhysics_height, hh]
  · exact handleWallCollisions_contains _
      (by rw [updatePlayerCarPhysics_width, hw])
      (by rw [updatePlayerCarPhysics_height, hh])
      (tick_corners_inflated car hw hh hb _) r

/-- C6: starting from any pose of a standard-sized car whose corners are
inside the world bounds inset by the wall thickness, any number of ticks —
each integrating forward-only input of any intensity and then resolving wall
collisions — leaves every post-correction corner coordinate within
`[WALL_THICKNESS, WORLD_WIDTH - WALL_THICKNESS] ×
[WALL_THICKNESS, WORLD_HEIGHT - WALL_THICKNESS]`. -/
theorem wall_containment (inputs : List (ℝ × ℝ)) (car0 : Car)
    (hw : car0.width = CAR_WIDTH) (hh : car0.height = CAR_HEIGHT)
    (hb : cornersInBounds car0) :
    cornersInBounds (inputs.foldl (fun c p => forwardTick c p.1 p.2) car0) := by
  induction inputs generalizing car0 with
  | nil => exact hb
  | cons p tl ih =>
      rw [List.foldl_cons]
      obtain ⟨hw2, hh2, hb2⟩ := forwardTick_preserves car0 hw hh hb p.1 p.2
      exact ih _ hw2 hh2 hb2

/-- Witness: a car spawned at the world center, full forward input for one
tick, stays within the walls. -/
theorem wall_containment_witness :
    cornersInBounds ([((1 : ℝ), (0.7 : ℝ))].foldl (fun c p => forwardTick c p.1 p.2)
      (createCar 1350 900 "w" 0 false)) :=
  wall_containment [((1 : ℝ), (0.7 : ℝ))] (createCar 1350 900 "w" 0 false) rfl rfl
    (by
      intro pt hpt
      simp only [createCar, getCarCorners, Real.cos_zero, Real.sin_zero, CAR_WIDTH,
        CAR_HEIGHT, List.mem_cons, List.not_mem_nil, or_false] at hpt
      rcases hpt with rfl | rfl | rfl | rfl <;>
        refine ⟨?_, ?_, ?_, ?_⟩ <;>
        norm_num [WALL_THICKNESS, WORLD_WIDTH, WORLD_HEIGHT])

end

end SmashFest
